import Mathlib

/-!
Verification of the x1factory reward-accounting programs.

This file gives a shallow embedding of the reward-engine logic of the three
Rust programs in the repository (`programs/mining_v2/src/lib.rs`,
`programs/pocm_vault_mining/src/lib.rs`, `programs/melt_v1/src/lib.rs`) and
proves the specification claims about them.

Machine integers are modelled as `Nat` (for `u8`/`u16`/`u64`/`u128`) and
`Int` (for `i64`), with every Rust `checked_*` operation modelled by an
explicit bound check returning `Except Err _`; a failed check is the
`MathOverflow` error, exactly as in the source.  Fallible Rust functions
(`Result<T>`) become `Except Err T`.
-/

/-- Error codes of the programs (only the variants reached by the embedded
functions are included). -/
inductive Err where
  | MathOverflow
  | NothingToClaim
  | PositionNotExpired
  | PositionInGrace
  | RigBuffCapExceeded
  | InvalidRigBuffPositions
  | InvalidRigDuration
  | InvalidContractType
  | BeforeStart
  | InvalidEpochLength
  | EmissionDepleted
  | ClaimAmountTooLarge
  | InvalidAmount
  | InvalidDuration
  | InvalidParams
  | Unauthorized
  deriving DecidableEq, Repr

/-- Result type of the embedded fallible functions. -/
abbrev MResult (α : Type) : Type := Except Err α

/-! ### Machine-integer bounds and checked arithmetic -/

def U64_MAX : Nat := 2 ^ 64 - 1
def U128_MAX : Nat := 2 ^ 128 - 1
def I64_MAX : Int := 2 ^ 63 - 1
def I64_MIN : Int := -(2 ^ 63)

/-- `u128::checked_add`. -/
def checkedAddU128 (a b : Nat) : MResult Nat :=
  if a + b ≤ U128_MAX then .ok (a + b) else .error .MathOverflow

/-- `u128::checked_mul`. -/
def checkedMulU128 (a b : Nat) : MResult Nat :=
  if a * b ≤ U128_MAX then .ok (a * b) else .error .MathOverflow

/-- `u128::checked_div` (fails only on a zero divisor). -/
def checkedDivU128 (a b : Nat) : MResult Nat :=
  if b = 0 then .error .MathOverflow else .ok (a / b)

/-- `u128::checked_sub` / `u64::checked_sub` (fails on underflow). -/
def checkedSubNat (a b : Nat) : MResult Nat :=
  if b ≤ a then .ok (a - b) else .error .MathOverflow

/-- `u64::checked_add`. -/
def checkedAddU64 (a b : Nat) : MResult Nat :=
  if a + b ≤ U64_MAX then .ok (a + b) else .error .MathOverflow

/-- `u64::checked_mul`. -/
def checkedMulU64 (a b : Nat) : MResult Nat :=
  if a * b ≤ U64_MAX then .ok (a * b) else .error .MathOverflow

/-- `i64::checked_sub`. -/
def checkedSubI64 (a b : Int) : MResult Int :=
  if I64_MIN ≤ a - b ∧ a - b ≤ I64_MAX then .ok (a - b) else .error .MathOverflow

/-- `i64::checked_add`. -/
def checkedAddI64 (a b : Int) : MResult Int :=
  if I64_MIN ≤ a + b ∧ a + b ≤ I64_MAX then .ok (a + b) else .error .MathOverflow

/-- `i64::checked_mul`. -/
def checkedMulI64 (a b : Int) : MResult Int :=
  if I64_MIN ≤ a * b ∧ a * b ≤ I64_MAX then .ok (a * b) else .error .MathOverflow

/-- `u64::try_from` on a `u128` value (fails when the value exceeds `u64::MAX`). -/
def u64TryFrom (n : Nat) : MResult Nat :=
  if n ≤ U64_MAX then .ok n else .error .MathOverflow

/-- The wrapping Rust cast `u64 as i64`. -/
def u64AsI64 (n : Nat) : Int :=
  if n < 2 ^ 63 then (n : Int) else (n : Int) - 2 ^ 64

/-! ### mining_v2 constants (`programs/mining_v2/src/lib.rs`) -/

def BPS_DENOMINATOR : Nat := 10000
def ACC_SCALE : Nat := 1000000000000000000
def HP_SCALE : Nat := 100
def HP_SCALED_MARKER : Nat := 2 ^ 63
def LEVEL_BONUS_CAP_BPS : Nat := 1000
def RIG_BUFF_CAP_BPS : Nat := 850
def XNT_BASE : Nat := 1000000000

/-! ### mining_v2 data model

Only the fields read or written by the embedded functions are carried;
the remaining `Config` fields (mints, vault addresses, staking-side state,
bump seeds) are opaque to the mining logic under verification. -/

structure Config where
  emission_per_sec : Nat
  acc_mind_per_hp : Nat
  last_update_ts : Int
  network_hp_active : Nat
  max_effective_hp : Nat
  seconds_per_day : Nat
  deriving DecidableEq, Repr

structure PositionData where
  owner : Nat
  hp : Nat
  start_ts : Int
  end_ts : Int
  reward_debt : Nat
  final_acc_mind_per_hp : Nat
  deactivated : Bool
  bump : Nat
  rig_type : Nat
  buff_level : Nat
  hp_scaled : Bool
  expired : Bool
  buff_applied_from_cycle : Nat
  version : Nat
  deriving DecidableEq, Repr

structure UserMiningProfile where
  owner : Nat
  next_position_index : Nat
  active_hp : Nat
  xp : Nat
  badge_tier : Nat
  badge_bonus_bps : Nat
  bump : Nat
  level : Nat
  last_xp_update_ts : Int
  hp_scaled : Bool
  deriving DecidableEq, Repr

/-! ### mining_v2 weight functions -/

/-- `fn level_bonus_bps`. -/
def level_bonus_bps (level : Nat) : Nat :=
  match level with
  | 0 => 0
  | 1 => 0
  | 2 => 160
  | 3 => 340
  | 4 => 550
  | 5 => 780
  | _ => LEVEL_BONUS_CAP_BPS

/-- `fn rig_buff_bps`. -/
def rig_buff_bps (rig_ty : Nat) (buff_level : Nat) : Nat :=
  match rig_ty with
  | 0 => match buff_level with
         | 0 => 0
         | _ => 100
  | 1 => match buff_level with
         | 0 => 0
         | 1 => 100
         | 2 => 200
         | _ => 350
  | 2 => match buff_level with
         | 0 => 0
         | 1 => 150
         | 2 => 300
         | _ => 500
  | _ => 0

/-- `fn rig_max_buff_level`. -/
def rig_max_buff_level (rig_ty : Nat) : Nat :=
  match rig_ty with
  | 0 => 1
  | 1 => 3
  | 2 => 3
  | _ => 0

/-- `fn position_buff_bps`: the buff contributes 0 bps until its activation
cycle has arrived (`buff_applied_from_cycle = 0` means "applies at once"). -/
def position_buff_bps (position : PositionData) (rig_ty : Nat) (now : Int) : Nat :=
  if position.buff_level = 0 then 0
  else if position.buff_applied_from_cycle = 0 then rig_buff_bps rig_ty position.buff_level
  else if position.buff_applied_from_cycle ≤ (max now 0).toNat then
    rig_buff_bps rig_ty position.buff_level
  else 0

/-- `fn apply_bps`: `amount * (10000 + bps) / 10000`, overflow-checked. -/
def apply_bps (amount : Nat) (bps : Nat) : MResult Nat := do
  let m ← checkedMulU128 amount (BPS_DENOMINATOR + bps)
  checkedDivU128 m BPS_DENOMINATOR

/-- `fn position_base_hp_scaled`. -/
def position_base_hp_scaled (position : PositionData) : MResult Nat :=
  if position.hp_scaled then .ok position.hp
  else checkedMulU128 position.hp HP_SCALE

/-- `fn rig_type_from_duration`. -/
def rig_type_from_duration (start_ts end_ts : Int) (seconds_per_day : Nat) : MResult Nat :=
  if ¬ end_ts > start_ts then throw .InvalidRigDuration
  else do
    let duration ← checkedSubI64 end_ts start_ts
    if ¬ (u64AsI64 seconds_per_day > 0) then throw .InvalidRigDuration
    else
      let days := duration / u64AsI64 seconds_per_day
      if days = 7 then .ok 0
      else if days = 14 then .ok 1
      else if days = 28 then .ok 2
      else .error .InvalidRigDuration

/-- `fn position_rig_type`. -/
def position_rig_type (position : PositionData) (cfg : Config) : MResult Nat :=
  if 2 ≤ position.version then .ok position.rig_type
  else rig_type_from_duration position.start_ts position.end_ts cfg.seconds_per_day

/-- `fn effective_hp_scaled`: the time-limited rig buff is applied first,
then the level bonus. -/
def effective_hp_scaled (base_hp_scaled : Nat) (level : Nat) (rig_buff : Nat) :
    MResult Nat := do
  let with_rig_buff ← apply_bps base_hp_scaled rig_buff
  apply_bps with_rig_buff (level_bonus_bps level)

/-- `fn earned_per_hp`. -/
def earned_per_hp (hp : Nat) (acc_mind_per_hp : Nat) : MResult Nat := do
  let m ← checkedMulU128 hp acc_mind_per_hp
  checkedDivU128 m ACC_SCALE

/-- `fn pending_mind`; `Nat` subtraction is exactly `u128::saturating_sub`. -/
def pending_mind (hp_effective : Nat) (acc_mind_per_hp : Nat) (reward_debt : Nat) :
    MResult Nat := do
  let earned ← earned_per_hp hp_effective acc_mind_per_hp
  .ok (earned - reward_debt)

/-- `fn effective_hp_for_claim`: picks the weight and the accumulator value a
claim uses, depending on the position's lifecycle state. -/
def effective_hp_for_claim (position : PositionData) (profile_level : Nat)
    (cfg : Config) (now : Int) : MResult (Nat × Nat) := do
  if position.deactivated then
    if position.hp &&& HP_SCALED_MARKER ≠ 0 then
      .ok (position.hp &&& (HP_SCALED_MARKER - 1), position.final_acc_mind_per_hp)
    else do
      let hp := position.hp
      let acc := position.final_acc_mind_per_hp
      let hp_scaled ← checkedMulU128 hp HP_SCALE
      let acc_scaled ← checkedDivU128 acc HP_SCALE
      .ok (hp_scaled, acc_scaled)
  else do
    let rig_ty ← position_rig_type position cfg
    let base_hp_scaled ← position_base_hp_scaled position
    let buff := position_buff_bps position rig_ty now
    let hp_effective ← effective_hp_scaled base_hp_scaled profile_level buff
    let acc := if position.expired then position.final_acc_mind_per_hp
               else cfg.acc_mind_per_hp
    .ok (hp_effective, acc)

/-! ### mining_v2 accumulator and lifecycle -/

/-- `fn update_mining_global`: the lazy advance of the global accumulator. -/
def update_mining_global (cfg : Config) (now : Int) : MResult Config := do
  if now ≤ cfg.last_update_ts then .ok cfg
  else do
    let dt ← checkedSubI64 now cfg.last_update_ts
    if cfg.network_hp_active = 0 then .ok { cfg with last_update_ts := now }
    else do
      let mintable ← checkedMulU128 dt.toNat cfg.emission_per_sec
      let scaled ← checkedMulU128 mintable ACC_SCALE
      let delta ← checkedDivU128 scaled cfg.network_hp_active
      let acc ← checkedAddU128 cfg.acc_mind_per_hp delta
      .ok { cfg with acc_mind_per_hp := acc, last_update_ts := now }

/-- `fn grace_deadline_ts`. -/
def grace_deadline_ts (end_ts : Int) (seconds_per_day : Nat) : MResult Int := do
  let grace ← checkedMulI64 (u64AsI64 seconds_per_day) 2
  checkedAddI64 end_ts grace

/-- `fn update_user_xp`. -/
def update_user_xp (profile : UserMiningProfile) (now : Int) :
    MResult UserMiningProfile := do
  if profile.level = 0 then
    .ok { profile with xp := 0, level := 1, last_xp_update_ts := now }
  else do
    let delta ← checkedSubI64 now profile.last_xp_update_ts
    if delta ≤ 0 then .ok profile
    else do
      let base_hp_scaled ←
        (if profile.hp_scaled then pure profile.active_hp
        else checkedMulU128 profile.active_hp HP_SCALE)
      let denom ← checkedMulU128 36000 HP_SCALE
      let m ← checkedMulU128 base_hp_scaled delta.toNat
      let gained ← checkedDivU128 m denom
      let gained64 ← u64TryFrom gained
      let xp ← checkedAddU64 profile.xp gained64
      .ok { profile with xp := xp, last_xp_update_ts := now }

/-- `fn expire_position`: the Active→Expired transition. -/
def expire_position (cfg : Config) (position : PositionData)
    (profile : UserMiningProfile) (now : Int) :
    MResult (Config × PositionData × UserMiningProfile) := do
  if position.deactivated ∨ position.expired ∨ now < position.end_ts then
    .ok (cfg, position, profile)
  else do
    let cfg1 ←
      (if cfg.last_update_ts < position.end_ts then update_mining_global cfg position.end_ts
      else pure cfg)
    let rig_ty ← position_rig_type position cfg1
    let base_hp_scaled ← position_base_hp_scaled position
    let buff := position_buff_bps position rig_ty now
    let hp_effective ← effective_hp_scaled base_hp_scaled profile.level buff
    let hp_effective64 ← u64TryFrom hp_effective
    let network ← checkedSubNat cfg1.network_hp_active hp_effective64
    let base64 ← u64TryFrom base_hp_scaled
    let active_hp ← checkedSubNat profile.active_hp base64
    let cfg2 ← update_mining_global { cfg1 with network_hp_active := network } now
    .ok (cfg2,
         { position with final_acc_mind_per_hp := cfg1.acc_mind_per_hp, expired := true },
         { profile with active_hp := active_hp })

/-- `fn finalize_position`: the Expired→Deactivated transition; the weight
removal is skipped when the position already expired, and the effective
weight is stuffed into `hp` under the high-bit marker. -/
def finalize_position (cfg : Config) (position : PositionData)
    (profile : UserMiningProfile) (now : Int) :
    MResult (Config × PositionData × UserMiningProfile) := do
  let cfg1 ←
    (if ¬ position.expired ∧ cfg.last_update_ts < position.end_ts then
      update_mining_global cfg position.end_ts
    else pure cfg)
  let rig_ty ← position_rig_type position cfg1
  let base_hp_scaled ← position_base_hp_scaled position
  let buff := position_buff_bps position rig_ty now
  let hp_effective ← effective_hp_scaled base_hp_scaled profile.level buff
  let hp_effective64 ← u64TryFrom hp_effective
  let step ←
    (if ¬ position.expired then do
      let network ← checkedSubNat cfg1.network_hp_active hp_effective64
      let base64 ← u64TryFrom base_hp_scaled
      let active_hp ← checkedSubNat profile.active_hp base64
      pure ({ cfg1 with network_hp_active := network },
            { position with final_acc_mind_per_hp := cfg1.acc_mind_per_hp, expired := true },
            { profile with active_hp := active_hp })
    else pure (cfg1, position, profile))
  if HP_SCALED_MARKER ≤ hp_effective64 then throw .MathOverflow
  else do
    let pos3 := { step.2.1 with deactivated := true, hp := hp_effective64 ||| HP_SCALED_MARKER }
    let cfg3 ← update_mining_global step.1 now
    .ok (cfg3, pos3, step.2.2)

/-! ### mining_v2 instruction cores

The handlers below are embedded from the point where the accounts have been
loaded and the owner checks have passed (token CPIs are the external custody
collaborator; account (de)serialization is the keyed-storage collaborator).
The returned triple is the state the handler persists on success. -/

/-- `pub fn claim_mind`, from `update_user_xp` onward; the returned `Nat` is
the minted reward. -/
def claim_mind_core (cfg : Config) (position : PositionData)
    (profile : UserMiningProfile) (now : Int) :
    MResult (Config × PositionData × UserMiningProfile × Nat) := do
  let prof1 ← update_user_xp profile now
  let step ←
    (if ¬ position.deactivated ∧ ¬ position.expired ∧ position.end_ts ≤ now then
      expire_position cfg position prof1 now
    else
      update_mining_global cfg now >>= fun c => pure (c, position, prof1))
  let (cfg1, pos1, prof2) := step
  let res ← effective_hp_for_claim pos1 prof2.level cfg1 now
  let (hp_effective, acc_used) := res
  let pending ← pending_mind hp_effective acc_used pos1.reward_debt
  if pending = 0 then throw .NothingToClaim
  else do
    let reward ← u64TryFrom pending
    let debt ← earned_per_hp hp_effective acc_used
    .ok (cfg1, { pos1 with reward_debt := debt }, prof2, reward)

/-- `pub fn deactivate_position`, from `update_user_xp` onward.  The early
return on an already-deactivated position skips the position/profile saves,
so the persisted state it yields is the input state unchanged. -/
def deactivate_position_core (cfg : Config) (position : PositionData)
    (profile : UserMiningProfile) (now : Int) :
    MResult (Config × PositionData × UserMiningProfile) := do
  let prof1 ← update_user_xp profile now
  if ¬ position.end_ts ≤ now then throw .PositionNotExpired
  else if position.deactivated then .ok (cfg, position, profile)
  else do
    let grace_deadline ← grace_deadline_ts position.end_ts cfg.seconds_per_day
    if ¬ grace_deadline < now then throw .PositionInGrace
    else do
      let step ←
        (if ¬ position.expired then expire_position cfg position prof1 now
        else
          update_mining_global cfg now >>= fun c => pure (c, position, prof1))
      let (cfg1, pos1, prof2) := step
      finalize_position cfg1 pos1 prof2 now

/-- One entry of the caller-supplied `remaining_accounts` list of
`renew_rig_with_buff`: the loaded position data plus whether this account is
the renewed position's own account (the loop skips that one by address). -/
structure RenewEntry where
  data : PositionData
  is_self : Bool
  deriving DecidableEq, Repr

/-- The sibling-portfolio loop of `pub fn renew_rig_with_buff` (lines
455-478): sums the raw (`base`) and rig-buffed (`buffed`) scaled HP of the
owner's other live positions, skipping foreign, dead and self entries. -/
def renew_sibling_totals (cfg : Config) (owner : Nat) (now : Int) :
    List RenewEntry → Nat → Nat → MResult (Nat × Nat)
  | [], base_total, buffed_total => .ok (base_total, buffed_total)
  | e :: rest, base_total, buffed_total =>
    if e.data.owner ≠ owner then
      renew_sibling_totals cfg owner now rest base_total buffed_total
    else if e.data.deactivated ∨ e.data.expired ∨ e.data.end_ts ≤ now then
      renew_sibling_totals cfg owner now rest base_total buffed_total
    else if e.is_self then
      renew_sibling_totals cfg owner now rest base_total buffed_total
    else do
      let rig_ty ← position_rig_type e.data cfg
      let base_hp_scaled ← position_base_hp_scaled e.data
      let buff := position_buff_bps e.data rig_ty now
      let base_total1 ← checkedAddU128 base_total base_hp_scaled
      let buffed ← apply_bps base_hp_scaled buff
      let buffed_total1 ← checkedAddU128 buffed_total buffed
      renew_sibling_totals cfg owner now rest base_total1 buffed_total1

/-- The aggregate bonus-cap validation of `pub fn renew_rig_with_buff`
(lines 455-507): reconciles the sibling base total against the profile's
running total, then checks the portfolio-wide bonus (in bps of the unbuffed
base, renewed position included) against `RIG_BUFF_CAP_BPS`. -/
def renew_rig_buff_cap_check (cfg : Config) (profile : UserMiningProfile)
    (now : Int) (entries : List RenewEntry) (rig_ty : Nat)
    (base_hp_scaled : Nat) (new_buff_level : Nat) : MResult Unit := do
  let totals ← renew_sibling_totals cfg profile.owner now entries 0 0
  let (base_total, buffed_total) := totals
  if ¬ base_total = profile.active_hp then throw .InvalidRigBuffPositions
  else do
  let renewed_buff_bps := rig_buff_bps rig_ty new_buff_level
  let renewed_buffed ← apply_bps base_hp_scaled renewed_buff_bps
  let base_total_after ← checkedAddU128 base_total base_hp_scaled
  let buffed_total_after ← checkedAddU128 buffed_total renewed_buffed
  if 0 < base_total_after then do
    let diff ← checkedSubNat buffed_total_after base_total_after
    let num ← checkedMulU128 diff BPS_DENOMINATOR
    let bonus_bps ← checkedDivU128 num base_total_after
    if bonus_bps ≤ RIG_BUFF_CAP_BPS then .ok () else throw .RigBuffCapExceeded
  else .ok ()

/-- Following the spec's words, not the source (for comparison in C6): the
aggregate combined buff-and-tier bonus of a portfolio, in bps of the unbuffed
base, where each entry is a pair of unbuffed base weight and rig-buff bps and
the tier bonus comes from the owner's level. -/
def spec_combined_buff_tier_bonus_bps (level : Nat) (entries : List (Nat × Nat)) :
    MResult Nat := do
  let base_total := (entries.map Prod.fst).sum
  let eff_total ← entries.foldlM
    (fun acc e => do
      let w ← effective_hp_scaled e.1 level e.2
      pure (acc + w)) 0
  if base_total = 0 then .ok 0
  else .ok ((eff_total - base_total) * BPS_DENOMINATOR / base_total)

/-! ### pocm_vault_mining (`programs/pocm_vault_mining/src/lib.rs`) -/

/-- The config fields of `pocm_vault_mining` read by the embedded functions. -/
structure VmConfig where
  daily_emission_initial : Nat
  daily_emission_current : Nat
  epoch_seconds : Nat
  soft_halving_period_days : Nat
  soft_halving_bps_drop : Nat
  emission_start_ts : Int
  mined_total : Nat
  mined_cap : Nat
  mind_reward_7d : Nat
  mind_reward_14d : Nat
  mind_reward_28d : Nat
  deriving DecidableEq, Repr

/-- A `UserPosition` of `pocm_vault_mining`. -/
structure VmUserPosition where
  owner : Nat
  locked_amount : Nat
  lock_start_ts : Int
  lock_end_ts : Int
  duration_days : Nat
  accrued_owed : Nat
  deriving DecidableEq, Repr

/-- `fn reward_for_duration`. -/
def reward_for_duration (duration_days : Nat) (cfg : VmConfig) : MResult Nat := do
  let reward ←
    (if duration_days = 7 then pure cfg.mind_reward_7d
    else if duration_days = 14 then pure cfg.mind_reward_14d
    else if duration_days = 28 ∨ duration_days = 30 then pure cfg.mind_reward_28d
    else throw .InvalidDuration)
  if reward = 0 then throw .InvalidAmount
  else .ok reward

/-- The per-position claimable amount of the loop bodies of `pub fn claim`:
linear accrual of the duration reward, minus what was already credited,
saturating at zero; skipped (0) entries are foreign, empty or not-yet-started
positions and degenerate timing. -/
def vm_position_claimable (cfg : VmConfig) (caller : Nat) (now : Int)
    (p : VmUserPosition) : MResult Nat := do
  if p.owner ≠ caller then .ok 0
  else if p.locked_amount = 0 then .ok 0
  else if now ≤ p.lock_start_ts then .ok 0
  else do
    let total_reward ← reward_for_duration p.duration_days cfg
    let duration ← checkedSubI64 p.lock_end_ts p.lock_start_ts
    let elapsed0 ← checkedSubI64 (min now p.lock_end_ts) p.lock_start_ts
    let elapsed := max elapsed0 0
    if duration ≤ 0 ∨ elapsed ≤ 0 then .ok 0
    else do
      let m ← checkedMulU128 total_reward elapsed.toNat
      let accrued ← checkedDivU128 m duration.toNat
      .ok (accrued - p.accrued_owed)

/-- The first loop of `pub fn claim`: fold of the claimable amounts with an
overflow-checked running total. -/
def vm_total_claimable (cfg : VmConfig) (caller : Nat) (now : Int)
    (acc : Nat) : List VmUserPosition → MResult Nat
  | [] => .ok acc
  | p :: ps => do
    let claimable ← vm_position_claimable cfg caller now p
    let acc1 ← checkedAddU128 acc claimable
    vm_total_claimable cfg caller now acc1 ps

/-- The second loop of `pub fn claim`: distributes the minted amount across
the positions' `accrued_owed` fields, breaking once it is exhausted. -/
def vm_claim_writeback (cfg : VmConfig) (caller : Nat) (now : Int) :
    Nat → List VmUserPosition → MResult (Nat × List VmUserPosition)
  | remaining, [] => .ok (remaining, [])
  | remaining, p :: ps =>
    if remaining = 0 then .ok (0, p :: ps)
    else do
      let claimable ← vm_position_claimable cfg caller now p
      if claimable = 0 then do
        let step ← vm_claim_writeback cfg caller now remaining ps
        .ok (step.1, p :: step.2)
      else do
        let take := min remaining claimable
        let take64 ← u64TryFrom take
        let owed ← checkedAddU64 p.accrued_owed take64
        let step ← vm_claim_writeback cfg caller now (remaining - take) ps
        .ok (step.1, { p with accrued_owed := owed } :: step.2)

/-- `pub fn claim` of `pocm_vault_mining`: the mint amount is bounded by
`min(total claimable, mined_cap - mined_total)`; the returned `Nat` is the
amount minted. -/
def vm_claim_core (cfg : VmConfig) (caller : Nat) (now : Int) (amount : Nat)
    (positions : List VmUserPosition) :
    MResult (VmConfig × List VmUserPosition × Nat) := do
  if amount = 0 then throw .InvalidAmount
  else do
  let total_claimable ← vm_total_claimable cfg caller now 0 positions
  let remaining ←
    (if cfg.mined_total ≤ cfg.mined_cap then pure (cfg.mined_cap - cfg.mined_total)
    else throw .EmissionDepleted)
  let max_claimable := min total_claimable remaining
  if max_claimable = 0 then throw .NothingToClaim
  else if ¬ amount ≤ max_claimable then throw .ClaimAmountTooLarge
  else do
    let mined ← checkedAddU64 cfg.mined_total amount
    let wb ← vm_claim_writeback cfg caller now amount positions
    .ok ({ cfg with mined_total := mined }, wb.2, amount)

/-- `fn epoch_index_for_ts`. -/
def epoch_index_for_ts (cfg : VmConfig) (ts : Int) : MResult Nat :=
  if ¬ cfg.emission_start_ts ≤ ts then throw .BeforeStart
  else do
    let elapsed ← checkedSubI64 ts cfg.emission_start_ts
    if ¬ 0 < cfg.epoch_seconds then throw .InvalidEpochLength
    else .ok (elapsed.toNat / cfg.epoch_seconds)

/-- Modelled from the spec: the per-epoch soft-halving emission computation
(`initial_emission * (1 - halving_drop_bps/10000)^halving_count`, each
halving step floored at its fixed-point division) is not present in the
sources under `src/` — `pocm_vault_mining` only stores the schedule
parameters `soft_halving_period_days` and `soft_halving_bps_drop` in its
config and never applies them.  Each step multiplies by
`(10000 - drop_bps)` and floors at the division by `10000`. -/
def epoch_emission_after_halvings (initial : Nat) (drop_bps : Nat) : Nat → Nat
  | 0 => initial
  | k + 1 => epoch_emission_after_halvings initial drop_bps k * (10000 - drop_bps) / 10000

/-- Modelled from the spec: `halving_count = elapsed_seconds / halving_period_seconds`
(missing from the sources under `src/` alongside the emission computation). -/
def halving_count (elapsed_seconds : Nat) (halving_period_seconds : Nat) : Nat :=
  elapsed_seconds / halving_period_seconds

/-! ### melt_v1 versioned state migration (`programs/melt_v1/src/lib.rs`)

Persisted records are modelled as byte lists (`List Nat`, each entry a byte
value).  Borsh serialization of the config structs is little-endian
fixed-width fields in declaration order, as in the source.  The 8-byte
Anchor account discriminator is a fixed tag whose concrete hash value is
irrelevant to the migration logic; it is modelled as a fixed 8-byte list. -/

/-- `MeltConfig` (the current schema generation). -/
structure MeltConfig where
  admin : Nat
  mind_mint : Nat
  vault : Nat
  vault_cap_lamports : Nat
  rollover_bps : Nat
  burn_min : Nat
  round_window_sec : Nat
  test_mode : Bool
  round_seq : Nat
  vial_lamports : Nat
  bonus_pool_lamports : Nat
  active_round_seq : Nat
  active_round_active : Bool
  pending_window_sec : Nat
  bump_config : Nat
  bump_vault : Nat
  deriving DecidableEq, Repr

/-- `MeltConfigLegacyV1` (the older, smaller schema generation). -/
structure MeltConfigLegacyV1 where
  admin : Nat
  mind_mint : Nat
  vault : Nat
  vault_cap_lamports : Nat
  rollover_bps : Nat
  burn_min : Nat
  round_window_sec : Nat
  test_mode : Bool
  round_seq : Nat
  bump_config : Nat
  bump_vault : Nat
  deriving DecidableEq, Repr

/-- Little-endian encoding of `n` into `w` bytes. -/
def leBytes : Nat → Nat → List Nat
  | 0, _ => []
  | w + 1, n => n % 256 :: leBytes w (n / 256)

/-- Value of a little-endian byte list. -/
def leVal : List Nat → Nat
  | [] => 0
  | b :: bs => b + 256 * leVal bs

/-- Borsh `bool` byte. -/
def boolByte (b : Bool) : Nat := if b then 1 else 0

/-- Reader for a `w`-byte little-endian field. -/
def readLE (w : Nat) (bs : List Nat) : MResult (Nat × List Nat) :=
  if w ≤ bs.length then .ok (leVal (bs.take w), bs.drop w)
  else .error .InvalidParams

/-- Reader for a borsh `bool` (only 0 and 1 are valid encodings). -/
def readBool (bs : List Nat) : MResult (Bool × List Nat) :=
  match bs with
  | 0 :: rest => .ok (false, rest)
  | 1 :: rest => .ok (true, rest)
  | _ => .error .InvalidParams

/-- `MeltConfig::INIT_SPACE` (borsh payload size of the current schema). -/
def MELT_CONFIG_INIT_SPACE : Nat := 166

/-- `MeltConfigLegacyV1::INIT_SPACE` (borsh payload size of the old schema). -/
def MELT_LEGACY_INIT_SPACE : Nat := 133

/-- The 8-byte Anchor discriminator of the `MeltConfig` account. -/
def MELT_CONFIG_DISCRIMINATOR : List Nat := [77, 76, 84, 67, 70, 71, 86, 50]

/-- Borsh serialization of `MeltConfig`. -/
def encodeMeltConfig (c : MeltConfig) : List Nat :=
  leBytes 32 c.admin ++ leBytes 32 c.mind_mint ++ leBytes 32 c.vault ++
  leBytes 8 c.vault_cap_lamports ++ leBytes 2 c.rollover_bps ++
  leBytes 8 c.burn_min ++ leBytes 8 c.round_window_sec ++
  [boolByte c.test_mode] ++ leBytes 8 c.round_seq ++
  leBytes 8 c.vial_lamports ++ leBytes 8 c.bonus_pool_lamports ++
  leBytes 8 c.active_round_seq ++ [boolByte c.active_round_active] ++
  leBytes 8 c.pending_window_sec ++
  leBytes 1 c.bump_config ++ leBytes 1 c.bump_vault

/-- Borsh serialization of `MeltConfigLegacyV1`. -/
def encodeMeltLegacy (c : MeltConfigLegacyV1) : List Nat :=
  leBytes 32 c.admin ++ leBytes 32 c.mind_mint ++ leBytes 32 c.vault ++
  leBytes 8 c.vault_cap_lamports ++ leBytes 2 c.rollover_bps ++
  leBytes 8 c.burn_min ++ leBytes 8 c.round_window_sec ++
  [boolByte c.test_mode] ++ leBytes 8 c.round_seq ++
  leBytes 1 c.bump_config ++ leBytes 1 c.bump_vault

/-- Borsh `try_from_slice` for `MeltConfig` (must consume the whole slice). -/
def decodeMeltConfig (bs : List Nat) : MResult MeltConfig := do
  let (admin, bs) ← readLE 32 bs
  let (mind_mint, bs) ← readLE 32 bs
  let (vault, bs) ← readLE 32 bs
  let (vault_cap, bs) ← readLE 8 bs
  let (rollover, bs) ← readLE 2 bs
  let (burn_min, bs) ← readLE 8 bs
  let (round_window, bs) ← readLE 8 bs
  let (test_mode, bs) ← readBool bs
  let (round_seq, bs) ← readLE 8 bs
  let (vial, bs) ← readLE 8 bs
  let (bonus_pool, bs) ← readLE 8 bs
  let (active_seq, bs) ← readLE 8 bs
  let (active_active, bs) ← readBool bs
  let (pending_window, bs) ← readLE 8 bs
  let (bump_config, bs) ← readLE 1 bs
  let (bump_vault, bs) ← readLE 1 bs
  ((if ¬ bs = [] then throw .InvalidParams
  else .ok
    { admin := admin, mind_mint := mind_mint, vault := vault,
      vault_cap_lamports := vault_cap, rollover_bps := rollover,
      burn_min := burn_min, round_window_sec := round_window,
      test_mode := test_mode, round_seq := round_seq,
      vial_lamports := vial, bonus_pool_lamports := bonus_pool,
      active_round_seq := active_seq, active_round_active := active_active,
      pending_window_sec := pending_window,
      bump_config := bump_config, bump_vault := bump_vault }) : MResult MeltConfig)

/-- Borsh `try_from_slice` for `MeltConfigLegacyV1`. -/
def decodeMeltLegacy (bs : List Nat) : MResult MeltConfigLegacyV1 := do
  let (admin, bs) ← readLE 32 bs
  let (mind_mint, bs) ← readLE 32 bs
  let (vault, bs) ← readLE 32 bs
  let (vault_cap, bs) ← readLE 8 bs
  let (rollover, bs) ← readLE 2 bs
  let (burn_min, bs) ← readLE 8 bs
  let (round_window, bs) ← readLE 8 bs
  let (test_mode, bs) ← readBool bs
  let (round_seq, bs) ← readLE 8 bs
  let (bump_config, bs) ← readLE 1 bs
  let (bump_vault, bs) ← readLE 1 bs
  ((if ¬ bs = [] then throw .InvalidParams
  else .ok
    { admin := admin, mind_mint := mind_mint, vault := vault,
      vault_cap_lamports := vault_cap, rollover_bps := rollover,
      burn_min := burn_min, round_window_sec := round_window,
      test_mode := test_mode, round_seq := round_seq,
      bump_config := bump_config, bump_vault := bump_vault }) : MResult MeltConfigLegacyV1)

/-- The legacy-to-current field mapping of `fn migrate_melt_config_account`
(lines 909-926): old fields copied, each newly-introduced field set to its
documented default. -/
def upgradeMeltLegacy (old : MeltConfigLegacyV1) : MeltConfig :=
  { admin := old.admin, mind_mint := old.mind_mint, vault := old.vault,
    vault_cap_lamports := old.vault_cap_lamports,
    rollover_bps := old.rollover_bps, burn_min := old.burn_min,
    round_window_sec := old.round_window_sec, test_mode := old.test_mode,
    round_seq := old.round_seq,
    vial_lamports := 0, bonus_pool_lamports := 0, active_round_seq := 0,
    active_round_active := false, pending_window_sec := 0,
    bump_config := old.bump_config, bump_vault := old.bump_vault }

/-- `fn migrate_melt_config_account`: detects the schema generation of the
persisted record purely from the payload length, upgrades a legacy record
(defaulting the new fields), checks the admin, and writes the current
encoding back.  The returned list is the account data after the write. -/
def migrate_melt_config_account (admin_key : Nat) (data : List Nat) :
    MResult (List Nat) :=
  if ¬ 8 ≤ data.length then throw .InvalidParams
  else if ¬ data.take 8 = MELT_CONFIG_DISCRIMINATOR then throw .InvalidParams
  else do
    let new_cfg ←
      (if (data.drop 8).length = MELT_CONFIG_INIT_SPACE then
        decodeMeltConfig (data.drop 8)
      else if (data.drop 8).length = MELT_LEGACY_INIT_SPACE then
        decodeMeltLegacy (data.drop 8) >>= fun old => pure (upgradeMeltLegacy old)
      else throw .InvalidParams)
    if ¬ new_cfg.admin = admin_key then throw .Unauthorized
    else if ¬ (encodeMeltConfig new_cfg).length = MELT_CONFIG_INIT_SPACE then
      throw .InvalidParams
    else .ok (MELT_CONFIG_DISCRIMINATOR ++ encodeMeltConfig new_cfg)

/-! ### Derived definitions used by the claims -/

/-- A single advance as an atomic operation: on an arithmetic abort the host
discards the state change. -/
def advance_step (cfg : Config) (now : Int) : Config :=
  match update_mining_global cfg now with
  | .ok cfg' => cfg'
  | .error _ => cfg

/-- Field-width well-formedness of a `MeltConfig` value (every field fits
its declared machine width). -/
def MeltConfigWF (c : MeltConfig) : Prop :=
  c.admin < 256 ^ 32 ∧ c.mind_mint < 256 ^ 32 ∧ c.vault < 256 ^ 32 ∧
  c.vault_cap_lamports < 256 ^ 8 ∧ c.rollover_bps < 256 ^ 2 ∧
  c.burn_min < 256 ^ 8 ∧ c.round_window_sec < 256 ^ 8 ∧
  c.round_seq < 256 ^ 8 ∧ c.vial_lamports < 256 ^ 8 ∧
  c.bonus_pool_lamports < 256 ^ 8 ∧ c.active_round_seq < 256 ^ 8 ∧
  c.pending_window_sec < 256 ^ 8 ∧ c.bump_config < 256 ^ 1 ∧
  c.bump_vault < 256 ^ 1

/-- Field-width well-formedness of a `MeltConfigLegacyV1` value. -/
def MeltLegacyWF (c : MeltConfigLegacyV1) : Prop :=
  c.admin < 256 ^ 32 ∧ c.mind_mint < 256 ^ 32 ∧ c.vault < 256 ^ 32 ∧
  c.vault_cap_lamports < 256 ^ 8 ∧ c.rollover_bps < 256 ^ 2 ∧
  c.burn_min < 256 ^ 8 ∧ c.round_window_sec < 256 ^ 8 ∧
  c.round_seq < 256 ^ 8 ∧ c.bump_config < 256 ^ 1 ∧ c.bump_vault < 256 ^ 1

/-! ### Basic lemmas about the result monad -/

@[simp] theorem ok_bind {α β : Type} (a : α) (f : α → MResult β) :
    (Except.ok a >>= f) = f a := rfl

@[simp] theorem error_bind {α β : Type} (e : Err) (f : α → MResult β) :
    ((Except.error e : MResult α) >>= f) = Except.error e := rfl

@[simp] theorem pure_eq_ok {α : Type} (a : α) : (pure a : MResult α) = Except.ok a := rfl

@[simp] theorem throw_eq_error {α : Type} (e : Err) :
    (throw e : MResult α) = Except.error e := rfl

@[simp] theorem ok_inj {α : Type} (a b : α) :
    ((Except.ok a : MResult α) = Except.ok b) ↔ a = b := by
  constructor
  · intro h
    cases h
    rfl
  · intro h
    rw [h]

theorem ok_ne_error {α : Type} (a : α) (e : Err) :
    (Except.ok a : MResult α) ≠ Except.error e := by
  intro h
  cases h

/-! ### Claim C2: the accumulator advance case split -/

theorem checkedSubI64_ok (a b : Int) (h1 : I64_MIN ≤ a - b) (h2 : a - b ≤ I64_MAX) :
    checkedSubI64 a b = .ok (a - b) := by
  simp [checkedSubI64, h1, h2]

/-- C2: the accumulator advance `update_mining_global` satisfies exactly the
specified case split: a no-op when `now <= last_update_time`; only
`last_update_time := now` when `total_active_weight` (`network_hp_active`)
is zero; otherwise it adds `(now - last_update_time) * emission_rate *
SCALE / total_active_weight` to the accumulator and sets
`last_update_time := now`, with every intermediate multiply/divide
overflow-checked and failing as `MathOverflow`. -/
theorem c2_update_mining_global_case_split (cfg : Config) (now : Int)
    (hlo : 0 ≤ cfg.last_update_ts) (hhi : now ≤ I64_MAX) :
    (now ≤ cfg.last_update_ts → update_mining_global cfg now = .ok cfg) ∧
    (cfg.last_update_ts < now → cfg.network_hp_active = 0 →
      update_mining_global cfg now = .ok { cfg with last_update_ts := now }) ∧
    (cfg.last_update_ts < now → cfg.network_hp_active ≠ 0 →
      (((now - cfg.last_update_ts).toNat * cfg.emission_per_sec ≤ U128_MAX ∧
        (now - cfg.last_update_ts).toNat * cfg.emission_per_sec * ACC_SCALE ≤ U128_MAX ∧
        cfg.acc_mind_per_hp + (now - cfg.last_update_ts).toNat * cfg.emission_per_sec *
          ACC_SCALE / cfg.network_hp_active ≤ U128_MAX) →
        update_mining_global cfg now = .ok { cfg with
          acc_mind_per_hp := cfg.acc_mind_per_hp +
            (now - cfg.last_update_ts).toNat * cfg.emission_per_sec * ACC_SCALE /
              cfg.network_hp_active,
          last_update_ts := now }) ∧
      (¬ ((now - cfg.last_update_ts).toNat * cfg.emission_per_sec ≤ U128_MAX ∧
          (now - cfg.last_update_ts).toNat * cfg.emission_per_sec * ACC_SCALE ≤ U128_MAX ∧
          cfg.acc_mind_per_hp + (now - cfg.last_update_ts).toNat * cfg.emission_per_sec *
            ACC_SCALE / cfg.network_hp_active ≤ U128_MAX) →
        update_mining_global cfg now = .error .MathOverflow)) := by
  refine ⟨fun h => by simp [update_mining_global, h], fun h hz => ?_, fun h hz => ?_⟩
  · have hsub : checkedSubI64 now cfg.last_update_ts = .ok (now - cfg.last_update_ts) := by
      apply checkedSubI64_ok
      · have : (0 : Int) ≤ now - cfg.last_update_ts := by omega
        have hm : I64_MIN ≤ (0 : Int) := by norm_num [I64_MIN]
        omega
      · omega
    simp [update_mining_global, not_le.mpr h, hsub, hz]
  · have hsub : checkedSubI64 now cfg.last_update_ts = .ok (now - cfg.last_update_ts) := by
      apply checkedSubI64_ok
      · have hm : I64_MIN ≤ (0 : Int) := by norm_num [I64_MIN]
        omega
      · omega
    constructor
    · rintro ⟨h1, h2, h3⟩
      simp [update_mining_global, not_le.mpr h, hsub, hz, checkedMulU128, h1, h2,
        checkedDivU128, checkedAddU128, h3]
    · intro hnot
      by_cases h1 : (now - cfg.last_update_ts).toNat * cfg.emission_per_sec ≤ U128_MAX
      · by_cases h2 : (now - cfg.last_update_ts).toNat * cfg.emission_per_sec *
            ACC_SCALE ≤ U128_MAX
        · have h3 : ¬ cfg.acc_mind_per_hp + (now - cfg.last_update_ts).toNat *
              cfg.emission_per_sec * ACC_SCALE / cfg.network_hp_active ≤ U128_MAX := by
            tauto
          simp [update_mining_global, not_le.mpr h, hsub, hz, checkedMulU128, h1, h2,
            checkedDivU128, checkedAddU128, h3]
        · simp [update_mining_global, not_le.mpr h, hsub, hz, checkedMulU128, h1, h2]
      · simp [update_mining_global, not_le.mpr h, hsub, hz, checkedMulU128, h1]

/-- Witness for C2 at a concrete state: both the zero-weight case and the
accruing case evaluate as the case split prescribes. -/
theorem c2_update_mining_global_case_split_witness :
    update_mining_global
      { emission_per_sec := 100, acc_mind_per_hp := 0, last_update_ts := 0,
        network_hp_active := 1000, max_effective_hp := 100000,
        seconds_per_day := 10 } 100 =
      .ok { emission_per_sec := 100, acc_mind_per_hp := 10000000000000000000,
            last_update_ts := 100, network_hp_active := 1000,
            max_effective_hp := 100000, seconds_per_day := 10 } := by
  have h := c2_update_mining_global_case_split
    { emission_per_sec := 100, acc_mind_per_hp := 0, last_update_ts := 0,
      network_hp_active := 1000, max_effective_hp := 100000,
      seconds_per_day := 10 } 100 (by norm_num) (by norm_num [I64_MAX])
  have h3 := h.2.2 (by norm_num) (by norm_num)
  have := h3.1 (by refine ⟨?_, ?_, ?_⟩ <;> decide)
  simpa [ACC_SCALE] using this

/-! ### Claim C3: accumulator monotonicity and no double accrual -/

theorem update_mining_global_ok_inv {cfg : Config} {now : Int} {cfg' : Config}
    (h : update_mining_global cfg now = .ok cfg') :
    cfg.acc_mind_per_hp ≤ cfg'.acc_mind_per_hp ∧
    cfg'.network_hp_active = cfg.network_hp_active ∧
    cfg'.emission_per_sec = cfg.emission_per_sec ∧
    cfg'.seconds_per_day = cfg.seconds_per_day ∧
    cfg'.max_effective_hp = cfg.max_effective_hp ∧
    ((now ≤ cfg.last_update_ts ∧ cfg' = cfg) ∨ cfg'.last_update_ts = now) := by
  unfold update_mining_global at h
  by_cases h0 : now ≤ cfg.last_update_ts
  · rw [if_pos h0] at h
    cases h
    exact ⟨le_refl _, rfl, rfl, rfl, rfl, Or.inl ⟨h0, rfl⟩⟩
  · rw [if_neg h0] at h
    unfold checkedSubI64 at h
    by_cases h1 : I64_MIN ≤ now - cfg.last_update_ts ∧ now - cfg.last_update_ts ≤ I64_MAX
    · rw [if_pos h1, ok_bind] at h
      by_cases h2 : cfg.network_hp_active = 0
      · rw [if_pos h2] at h
        cases h
        exact ⟨le_refl _, rfl, rfl, rfl, rfl, Or.inr rfl⟩
      · rw [if_neg h2] at h
        unfold checkedMulU128 at h
        by_cases h3 : (now - cfg.last_update_ts).toNat * cfg.emission_per_sec ≤ U128_MAX
        · rw [if_pos h3, ok_bind] at h
          by_cases h4 : (now - cfg.last_update_ts).toNat * cfg.emission_per_sec *
              ACC_SCALE ≤ U128_MAX
          · rw [if_pos h4, ok_bind] at h
            unfold checkedDivU128 at h
            rw [if_neg h2, ok_bind] at h
            unfold checkedAddU128 at h
            by_cases h5 : cfg.acc_mind_per_hp + (now - cfg.last_update_ts).toNat *
                cfg.emission_per_sec * ACC_SCALE / cfg.network_hp_active ≤ U128_MAX
            · rw [if_pos h5, ok_bind] at h
              cases h
              exact ⟨Nat.le_add_right _ _, rfl, rfl, rfl, rfl, Or.inr rfl⟩
            · rw [if_neg h5, error_bind] at h
              cases h
          · rw [if_neg h4, error_bind] at h
            cases h
        · rw [if_neg h3, error_bind] at h
          cases h
    · rw [if_neg h1, error_bind] at h
      cases h

theorem advance_step_acc_mono (cfg : Config) (now : Int) :
    cfg.acc_mind_per_hp ≤ (advance_step cfg now).acc_mind_per_hp := by
  unfold advance_step
  cases h : update_mining_global cfg now with
  | ok cfg' => exact (update_mining_global_ok_inv h).1
  | error e => exact le_refl _

theorem chain_scanl_advance (cfg : Config) (nows : List Int) :
    ((List.scanl advance_step cfg nows).map Config.acc_mind_per_hp).Chain' (· ≤ ·) := by
  induction nows generalizing cfg with
  | nil => simp
  | cons t ts ih =>
    rw [List.scanl_cons, List.singleton_append, List.map_cons]
    refine List.Chain'.cons' (ih (advance_step cfg t)) ?_
    intro y hy
    have hhead : ((List.scanl advance_step (advance_step cfg t) ts).map
        Config.acc_mind_per_hp).head? = some ((advance_step cfg t).acc_mind_per_hp) := by
      cases ts <;> simp
    rw [hhead, Option.mem_def, Option.some.injEq] at hy
    rw [← hy]
    exact advance_step_acc_mono cfg t

/-- C3: along any sequence of `advance` calls whose `now` values are
non-decreasing, `accumulated_reward_per_weight` (`acc_mind_per_hp`) is
non-decreasing; and a second `advance` with the same `now` right after a
successful one changes nothing (neither the accumulator nor
`last_update_time`). -/
theorem c3_accumulator_monotone_no_double_accrual (cfg : Config) (nows : List Int)
    (hmono : nows.Chain' (· ≤ ·)) :
    ((List.scanl advance_step cfg nows).map Config.acc_mind_per_hp).Chain' (· ≤ ·) ∧
    (∀ c : Config, ∀ now : Int, ∀ c' : Config,
      update_mining_global c now = .ok c' → update_mining_global c' now = .ok c') := by
  refine ⟨chain_scanl_advance cfg nows, fun c now c' h => ?_⟩
  rcases (update_mining_global_ok_inv h).2.2.2.2.2 with ⟨hle, rfl⟩ | hlu
  · rw [← h]
  · unfold update_mining_global
    rw [if_pos (le_of_eq hlu.symm)]

/-- Witness for C3 on a concrete call sequence and a concrete repeated call. -/
theorem c3_accumulator_monotone_no_double_accrual_witness :
    ((List.scanl advance_step
        { emission_per_sec := 100, acc_mind_per_hp := 0, last_update_ts := 0,
          network_hp_active := 1000, max_effective_hp := 100000,
          seconds_per_day := 10 } [20, 50, 50, 100]).map
       Config.acc_mind_per_hp).Chain' (· ≤ ·) ∧
    update_mining_global
      { emission_per_sec := 100, acc_mind_per_hp := 2000000000000000000,
        last_update_ts := 50, network_hp_active := 1000,
        max_effective_hp := 100000, seconds_per_day := 10 } 50 =
      .ok { emission_per_sec := 100, acc_mind_per_hp := 2000000000000000000,
            last_update_ts := 50, network_hp_active := 1000,
            max_effective_hp := 100000, seconds_per_day := 10 } := by
  have h := c3_accumulator_monotone_no_double_accrual
    { emission_per_sec := 100, acc_mind_per_hp := 0, last_update_ts := 0,
      network_hp_active := 1000, max_effective_hp := 100000,
      seconds_per_day := 10 } [20, 50, 50, 100] (by norm_num [List.chain'_cons])
  have hh : update_mining_global
      { emission_per_sec := 100, acc_mind_per_hp := 2000000000000000000,
        last_update_ts := 50, network_hp_active := 1000,
        max_effective_hp := 100000, seconds_per_day := 10 } 50 =
      .ok { emission_per_sec := 100, acc_mind_per_hp := 2000000000000000000,
            last_update_ts := 50, network_hp_active := 1000,
            max_effective_hp := 100000, seconds_per_day := 10 } := rfl
  exact ⟨h.1, h.2 _ 50 _ hh⟩

/-! ### Claim C1: the pending-reward formula and debt correctness -/

theorem effective_hp_for_claim_debt_irrel (pos : PositionData) (lvl : Nat)
    (cfg : Config) (now : Int) (d : Nat) :
    effective_hp_for_claim { pos with reward_debt := d } lvl cfg now =
      effective_hp_for_claim pos lvl cfg now := rfl

theorem pending_mind_of_earned {hp acc d : Nat}
    (h : earned_per_hp hp acc = .ok d) : pending_mind hp acc d = .ok 0 := by
  unfold pending_mind
  rw [h, ok_bind, Nat.sub_self]

theorem bind_ok_elim {α β : Type} {e : MResult α} {f : α → MResult β} {b : β}
    (h : (e >>= f) = .ok b) : ∃ a, e = .ok a ∧ f a = .ok b := by
  cases e with
  | ok a => exact ⟨a, rfl, h⟩
  | error err => rw [error_bind] at h; cases h

theorem ite_ok_elim {α : Type} {c : Prop} [Decidable c] {e1 e2 : MResult α} {b : α}
    (h : (if c then e1 else e2) = .ok b) :
    (c ∧ e1 = .ok b) ∨ (¬ c ∧ e2 = .ok b) := by
  by_cases hc : c
  · rw [if_pos hc] at h
    exact Or.inl ⟨hc, h⟩
  · rw [if_neg hc] at h
    exact Or.inr ⟨hc, h⟩

/-- C1: `pending_mind` equals the effective weight times the accumulator
value in use, divided by `ACC_SCALE`, minus `reward_debt`, saturating at
zero (`Nat` subtraction, hence never negative); and right after a successful
`claim_mind` (which rewrites `reward_debt` to the just-computed earned
value), recomputing pending on the resulting position with the same
accumulator state yields 0. -/
theorem c1_pending_formula_and_claim_zero :
    (∀ hp acc debt p, pending_mind hp acc debt = .ok p →
        hp * acc ≤ U128_MAX ∧ p = hp * acc / ACC_SCALE - debt) ∧
    (∀ cfg pos prof, ∀ now : Int, ∀ cfg' pos' prof' reward,
        claim_mind_core cfg pos prof now = .ok (cfg', pos', prof', reward) →
        ∀ hpe acc, effective_hp_for_claim pos' prof'.level cfg' now = .ok (hpe, acc) →
          pending_mind hpe acc pos'.reward_debt = .ok 0) := by
  constructor
  · intro hp acc debt p h
    unfold pending_mind earned_per_hp checkedMulU128 checkedDivU128 at h
    by_cases h1 : hp * acc ≤ U128_MAX
    · rw [if_pos h1, ok_bind, if_neg (by decide : ¬ ACC_SCALE = 0), ok_bind] at h
      cases h
      exact ⟨h1, rfl⟩
    · rw [if_neg h1, error_bind] at h
      cases h
  · intro cfg pos prof now cfg' pos' prof' reward h hpe acc hef
    unfold claim_mind_core at h
    obtain ⟨prof1, hprof, h⟩ := bind_ok_elim h
    obtain ⟨⟨cfg1, pos1, prof2⟩, hstep, h⟩ := bind_ok_elim h
    dsimp only at h
    obtain ⟨⟨hpe0, acc0⟩, heff, h⟩ := bind_ok_elim h
    dsimp only at h
    obtain ⟨p, hpend, h⟩ := bind_ok_elim h
    rcases ite_ok_elim h with ⟨_, h⟩ | ⟨hp0, h⟩
    · cases h
    · obtain ⟨r, hr, h⟩ := bind_ok_elim h
      obtain ⟨d, hdebt, h⟩ := bind_ok_elim h
      cases h
      rw [effective_hp_for_claim_debt_irrel, heff, ok_inj] at hef
      cases hef
      exact pending_mind_of_earned hdebt

/-- Witness for C1: the formula at concrete values, and a full concrete
claim whose recomputed pending is 0. -/
theorem c1_pending_formula_and_claim_zero_witness :
    (3 * ACC_SCALE ≤ U128_MAX ∧ (2 : Nat) = 3 * ACC_SCALE / ACC_SCALE - 1) ∧
    pending_mind 700 10000000000000000000
      (PositionData.reward_debt
        { owner := 7, hp := 700, start_ts := 0, end_ts := 100, reward_debt := 7000,
          final_acc_mind_per_hp := 10000000000000000000, deactivated := false,
          bump := 1, rig_type := 1, buff_level := 0, hp_scaled := true,
          expired := true, buff_applied_from_cycle := 0, version := 2 }) = .ok 0 := by
  constructor
  · exact c1_pending_formula_and_claim_zero.1 3 ACC_SCALE 1 2 rfl
  · exact c1_pending_formula_and_claim_zero.2
      { emission_per_sec := 100, acc_mind_per_hp := 0, last_update_ts := 0,
        network_hp_active := 1000, max_effective_hp := 100000, seconds_per_day := 10 }
      { owner := 7, hp := 700, start_ts := 0, end_ts := 100, reward_debt := 0,
        final_acc_mind_per_hp := 0, deactivated := false, bump := 1, rig_type := 1,
        buff_level := 0, hp_scaled := true, expired := false,
        buff_applied_from_cycle := 0, version := 2 }
      { owner := 7, next_position_index := 1, active_hp := 700, xp := 0,
        badge_tier := 0, badge_bonus_bps := 0, bump := 1, level := 1,
        last_xp_update_ts := 0, hp_scaled := true }
      150
      { emission_per_sec := 100, acc_mind_per_hp := 26666666666666666666,
        last_update_ts := 150, network_hp_active := 300,
        max_effective_hp := 100000, seconds_per_day := 10 }
      { owner := 7, hp := 700, start_ts := 0, end_ts := 100, reward_debt := 7000,
        final_acc_mind_per_hp := 10000000000000000000, deactivated := false,
        bump := 1, rig_type := 1, buff_level := 0, hp_scaled := true,
        expired := true, buff_applied_from_cycle := 0, version := 2 }
      { owner := 7, next_position_index := 1, active_hp := 0, xp := 0,
        badge_tier := 0, badge_bonus_bps := 0, bump := 1, level := 1,
        last_xp_update_ts := 150, hp_scaled := true }
      7000 rfl 700 10000000000000000000 rfl

/-! ### Claim C5: multiplicative order of the weight modifiers -/

/-- C5: the effective weight applies the time-limited rig buff first
(`w1 = base * (10000 + buff_bps) / 10000`) and the tier/level bonus second
(`w2 = w1 * (10000 + tier_bonus_bps) / 10000`), in exactly this order; and
the buff contributes 0 bps whenever its activation cycle has not yet
arrived, so a buff granted mid-contract is never retroactive. -/
theorem c5_effective_weight_buff_then_tier :
    (∀ base lvl buff,
        base * (BPS_DENOMINATOR + buff) ≤ U128_MAX →
        base * (BPS_DENOMINATOR + buff) / BPS_DENOMINATOR *
          (BPS_DENOMINATOR + level_bonus_bps lvl) ≤ U128_MAX →
        effective_hp_scaled base lvl buff =
          .ok (base * (BPS_DENOMINATOR + buff) / BPS_DENOMINATOR *
               (BPS_DENOMINATOR + level_bonus_bps lvl) / BPS_DENOMINATOR)) ∧
    (∀ pos rig_ty, ∀ now : Int,
        pos.buff_applied_from_cycle ≠ 0 →
        (max now 0).toNat < pos.buff_applied_from_cycle →
        position_buff_bps pos rig_ty now = 0) := by
  constructor
  · intro base lvl buff h1 h2
    unfold effective_hp_scaled apply_bps checkedMulU128 checkedDivU128
    rw [if_pos h1, ok_bind, if_neg (by decide : ¬ BPS_DENOMINATOR = 0), ok_bind,
      if_pos h2, ok_bind, if_neg (by decide : ¬ BPS_DENOMINATOR = 0)]
  · intro pos rig_ty now hcy hlt
    unfold position_buff_bps
    by_cases hb : pos.buff_level = 0
    · rw [if_pos hb]
    · rw [if_neg hb, if_neg hcy, if_neg (by omega)]

/-- Witness for C5: the buff-then-tier formula at base 700, level 5,
buff 100 bps, and a not-yet-active buff contributing 0 bps. -/
theorem c5_effective_weight_buff_then_tier_witness :
    effective_hp_scaled 700 5 100 =
      .ok (700 * (BPS_DENOMINATOR + 100) / BPS_DENOMINATOR *
           (BPS_DENOMINATOR + level_bonus_bps 5) / BPS_DENOMINATOR) ∧
    position_buff_bps
      { owner := 7, hp := 700, start_ts := 0, end_ts := 100, reward_debt := 0,
        final_acc_mind_per_hp := 0, deactivated := false, bump := 1, rig_type := 1,
        buff_level := 1, hp_scaled := true, expired := false,
        buff_applied_from_cycle := 90, version := 2 } 1 50 = 0 := by
  constructor
  · exact c5_effective_weight_buff_then_tier.1 700 5 100 (by decide) (by decide)
  · exact c5_effective_weight_buff_then_tier.2
      { owner := 7, hp := 700, start_ts := 0, end_ts := 100, reward_debt := 0,
        final_acc_mind_per_hp := 0, deactivated := false, bump := 1, rig_type := 1,
        buff_level := 1, hp_scaled := true, expired := false,
        buff_applied_from_cycle := 90, version := 2 } 1 50 (by decide) (by decide)

/-! ### Claim C4: the Active-to-Expired transition -/

theorem expire_advance_eq {cfg : Config} {e : Int} {cfg1 : Config}
    (h : (if cfg.last_update_ts < e then update_mining_global cfg e else pure cfg) =
      .ok cfg1) :
    update_mining_global cfg e = .ok cfg1 := by
  rcases ite_ok_elim h with ⟨hlt, h⟩ | ⟨hge, h⟩
  · exact h
  · rw [pure_eq_ok, ok_inj] at h
    cases h
    unfold update_mining_global
    rw [if_pos (not_lt.mp hge)]

/-- C4: when a position is first touched Active with `now >= end_time`,
`expire_position` advances the accumulator up to `end_time` (not `now`),
freezes `final_accumulator_snapshot` at the accumulator value at that
moment (so every later claim on the expired position uses that frozen
value), removes the position's effective weight from the pool total and the
raw contribution from the owner's running total, and only then advances the
accumulator a second time from `end_time` to `now`. -/
theorem c4_expire_position_freezes_at_end_time
    (cfg : Config) (pos : PositionData) (prof : UserMiningProfile) (now : Int)
    (cfg' : Config) (pos' : PositionData) (prof' : UserMiningProfile)
    (hd : pos.deactivated = false) (he : pos.expired = false)
    (hn : pos.end_ts ≤ now)
    (hrun : expire_position cfg pos prof now = .ok (cfg', pos', prof')) :
    ∃ cfg1 rt base hpe,
      update_mining_global cfg pos.end_ts = .ok cfg1 ∧
      position_rig_type pos cfg1 = .ok rt ∧
      position_base_hp_scaled pos = .ok base ∧
      effective_hp_scaled base prof.level (position_buff_bps pos rt now) = .ok hpe ∧
      pos' = { pos with final_acc_mind_per_hp := cfg1.acc_mind_per_hp, expired := true } ∧
      hpe ≤ cfg1.network_hp_active ∧
      base ≤ prof.active_hp ∧
      prof' = { prof with active_hp := prof.active_hp - base } ∧
      update_mining_global { cfg1 with network_hp_active := cfg1.network_hp_active - hpe }
        now = .ok cfg' ∧
      (∀ cfg2 : Config, ∀ lvl : Nat, ∀ t : Int, ∀ hp2 acc2 : Nat,
        effective_hp_for_claim pos' lvl cfg2 t = .ok (hp2, acc2) →
        acc2 = cfg1.acc_mind_per_hp) := by
  unfold expire_position at hrun
  rw [if_neg (by simp [hd, he]; omega)] at hrun
  obtain ⟨cfg1, hcfg1, hrun⟩ := bind_ok_elim hrun
  replace hcfg1 := expire_advance_eq hcfg1
  obtain ⟨rt, hrt, hrun⟩ := bind_ok_elim hrun
  obtain ⟨base, hbase, hrun⟩ := bind_ok_elim hrun
  obtain ⟨hpe, hhpe, hrun⟩ := bind_ok_elim hrun
  obtain ⟨hpe64, hhpe64, hrun⟩ := bind_ok_elim hrun
  obtain ⟨network, hnet, hrun⟩ := bind_ok_elim hrun
  obtain ⟨base64, hbase64, hrun⟩ := bind_ok_elim hrun
  obtain ⟨active, hactive, hrun⟩ := bind_ok_elim hrun
  obtain ⟨cfg2, hcfg2, hrun⟩ := bind_ok_elim hrun
  rw [ok_inj] at hrun
  have hc : cfg2 = cfg' := congrArg Prod.fst hrun
  have hpp := congrArg (fun x : Config × PositionData × UserMiningProfile => x.2.1) hrun
  have hff := congrArg (fun x : Config × PositionData × UserMiningProfile => x.2.2) hrun
  dsimp only at hpp hff
  subst hc hpp hff
  unfold u64TryFrom at hhpe64
  rcases ite_ok_elim hhpe64 with ⟨hle64, h64⟩ | ⟨_, h64⟩
  · rw [ok_inj] at h64
    cases h64
    unfold checkedSubNat at hnet hactive
    rcases ite_ok_elim hnet with ⟨hlen, hnet⟩ | ⟨_, hnet⟩
    · rw [ok_inj] at hnet
      unfold u64TryFrom at hbase64
      rcases ite_ok_elim hbase64 with ⟨hleb, hb64⟩ | ⟨_, hb64⟩
      · rw [ok_inj] at hb64
        cases hb64
        rcases ite_ok_elim hactive with ⟨hlea, hactive⟩ | ⟨_, hactive⟩
        · rw [ok_inj] at hactive
          refine ⟨cfg1, rt, base, hpe, hcfg1, hrt, hbase, hhpe, rfl, hlen, hlea, ?_, ?_, ?_⟩
          · rw [← hactive]
          · rw [← hnet] at hcfg2
            exact hcfg2
          · intro cfg2x lvl t hp2 acc2 heff
            unfold effective_hp_for_claim at heff
            rw [if_neg (by simp [hd])] at heff
            obtain ⟨rt2, hrt2, heff⟩ := bind_ok_elim heff
            obtain ⟨base2, hbase2, heff⟩ := bind_ok_elim heff
            obtain ⟨hpe2, hhpe2, heff⟩ := bind_ok_elim heff
            rw [ok_inj] at heff
            have hacc := congrArg Prod.snd heff.symm
            simpa using hacc
        · cases hactive
      · cases hb64
    · cases hnet
  · cases h64

/-- Witness for C4: a position with maturity `end_ts = 100` touched at
`now = 150` freezes its snapshot at the accumulator value of `t = 100`. -/
theorem c4_expire_position_freezes_at_end_time_witness :
    ∃ cfg1 rt base hpe,
      update_mining_global
        { emission_per_sec := 100, acc_mind_per_hp := 0, last_update_ts := 0,
          network_hp_active := 1000, max_effective_hp := 100000,
          seconds_per_day := 10 } (100 : Int) = .ok cfg1 ∧
      position_rig_type
        { owner := 7, hp := 700, start_ts := 0, end_ts := 100, reward_debt := 0,
          final_acc_mind_per_hp := 0, deactivated := false, bump := 1, rig_type := 1,
          buff_level := 0, hp_scaled := true, expired := false,
          buff_applied_from_cycle := 0, version := 2 } cfg1 = .ok rt ∧
      position_base_hp_scaled
        { owner := 7, hp := 700, start_ts := 0, end_ts := 100, reward_debt := 0,
          final_acc_mind_per_hp := 0, deactivated := false, bump := 1, rig_type := 1,
          buff_level := 0, hp_scaled := true, expired := false,
          buff_applied_from_cycle := 0, version := 2 } = .ok base ∧
      effective_hp_scaled base
        (UserMiningProfile.level
          { owner := 7, next_position_index := 1, active_hp := 700, xp := 0,
            badge_tier := 0, badge_bonus_bps := 0, bump := 1, level := 1,
            last_xp_update_ts := 0, hp_scaled := true })
        (position_buff_bps
          { owner := 7, hp := 700, start_ts := 0, end_ts := 100, reward_debt := 0,
            final_acc_mind_per_hp := 0, deactivated := false, bump := 1, rig_type := 1,
            buff_level := 0, hp_scaled := true, expired := false,
            buff_applied_from_cycle := 0, version := 2 } rt 150) = .ok hpe ∧
      ({ owner := 7, hp := 700, start_ts := 0, end_ts := 100, reward_debt := 0,
         final_acc_mind_per_hp := 10000000000000000000, deactivated := false,
         bump := 1, rig_type := 1, buff_level := 0, hp_scaled := true,
         expired := true, buff_applied_from_cycle := 0,
         version := 2 } : PositionData) =
        { ({ owner := 7, hp := 700, start_ts := 0, end_ts := 100, reward_debt := 0,
             final_acc_mind_per_hp := 0, deactivated := false, bump := 1, rig_type := 1,
             buff_level := 0, hp_scaled := true, expired := false,
             buff_applied_from_cycle := 0, version := 2 } : PositionData) with
          final_acc_mind_per_hp := cfg1.acc_mind_per_hp, expired := true } ∧
      hpe ≤ cfg1.network_hp_active ∧
      base ≤ UserMiningProfile.active_hp
        { owner := 7, next_position_index := 1, active_hp := 700, xp := 0,
          badge_tier := 0, badge_bonus_bps := 0, bump := 1, level := 1,
          last_xp_update_ts := 0, hp_scaled := true } ∧
      ({ owner := 7, next_position_index := 1, active_hp := 0, xp := 0,
         badge_tier := 0, badge_bonus_bps := 0, bump := 1, level := 1,
         last_xp_update_ts := 0, hp_scaled := true } : UserMiningProfile) =
        { ({ owner := 7, next_position_index := 1, active_hp := 700, xp := 0,
             badge_tier := 0, badge_bonus_bps := 0, bump := 1, level := 1,
             last_xp_update_ts := 0, hp_scaled := true } : UserMiningProfile) with
          active_hp := 700 - base } ∧
      update_mining_global
        { cfg1 with network_hp_active := cfg1.network_hp_active - hpe } 150 =
        .ok { emission_per_sec := 100, acc_mind_per_hp := 26666666666666666666,
              last_update_ts := 150, network_hp_active := 300,
              max_effective_hp := 100000, seconds_per_day := 10 } ∧
      (∀ cfg2 : Config, ∀ lvl : Nat, ∀ t : Int, ∀ hp2 acc2 : Nat,
        effective_hp_for_claim
          { owner := 7, hp := 700, start_ts := 0, end_ts := 100, reward_debt := 0,
            final_acc_mind_per_hp := 10000000000000000000, deactivated := false,
            bump := 1, rig_type := 1, buff_level := 0, hp_scaled := true,
            expired := true, buff_applied_from_cycle := 0, version := 2 }
          lvl cfg2 t = .ok (hp2, acc2) →
        acc2 = cfg1.acc_mind_per_hp) :=
  c4_expire_position_freezes_at_end_time
    { emission_per_sec := 100, acc_mind_per_hp := 0, last_update_ts := 0,
      network_hp_active := 1000, max_effective_hp := 100000, seconds_per_day := 10 }
    { owner := 7, hp := 700, start_ts := 0, end_ts := 100, reward_debt := 0,
      final_acc_mind_per_hp := 0, deactivated := false, bump := 1, rig_type := 1,
      buff_level := 0, hp_scaled := true, expired := false,
      buff_applied_from_cycle := 0, version := 2 }
    { owner := 7, next_position_index := 1, active_hp := 700, xp := 0,
      badge_tier := 0, badge_bonus_bps := 0, bump := 1, level := 1,
      last_xp_update_ts := 0, hp_scaled := true }
    150
    { emission_per_sec := 100, acc_mind_per_hp := 26666666666666666666,
      last_update_ts := 150, network_hp_active := 300,
      max_effective_hp := 100000, seconds_per_day := 10 }
    { owner := 7, hp := 700, start_ts := 0, end_ts := 100, reward_debt := 0,
      final_acc_mind_per_hp := 10000000000000000000, deactivated := false,
      bump := 1, rig_type := 1, buff_level := 0, hp_scaled := true,
      expired := true, buff_applied_from_cycle := 0, version := 2 }
    { owner := 7, next_position_index := 1, active_hp := 0, xp := 0,
      badge_tier := 0, badge_bonus_bps := 0, bump := 1, level := 1,
      last_xp_update_ts := 0, hp_scaled := true }
    rfl rfl (by decide) rfl

/-! ### Claim C7: idempotence of the Expired-to-Deactivated transition -/

theorem checkedSubI64_self (a : Int) : checkedSubI64 a a = .ok 0 := by
  unfold checkedSubI64
  rw [if_pos (by rw [sub_self]; exact ⟨by norm_num [I64_MIN], by norm_num [I64_MAX]⟩)]
  rw [sub_self]

theorem update_user_xp_idem {prof prof1 : UserMiningProfile} {now : Int}
    (h : update_user_xp prof now = .ok prof1) (x : Nat) :
    update_user_xp { prof1 with active_hp := x } now =
      .ok { prof1 with active_hp := x } := by
  unfold update_user_xp at h ⊢
  by_cases h0 : prof.level = 0
  · rw [if_pos h0, ok_inj] at h
    subst h
    dsimp only
    rw [if_neg (by decide : ¬ (1 : Nat) = 0), checkedSubI64_self, ok_bind,
      if_pos (le_refl (0 : Int))]
  · rw [if_neg h0] at h
    obtain ⟨d, hd, h⟩ := bind_ok_elim h
    rcases ite_ok_elim h with ⟨hdle, h⟩ | ⟨hdgt, h⟩
    · rw [ok_inj] at h
      subst h
      dsimp only
      rw [if_neg h0, hd, ok_bind, if_pos hdle]
    · obtain ⟨b, hb, h⟩ := bind_ok_elim h
      obtain ⟨dn, hdn, h⟩ := bind_ok_elim h
      obtain ⟨m, hm, h⟩ := bind_ok_elim h
      obtain ⟨g, hg, h⟩ := bind_ok_elim h
      obtain ⟨g64, hg64, h⟩ := bind_ok_elim h
      obtain ⟨xp1, hxp, h⟩ := bind_ok_elim h
      rw [ok_inj] at h
      subst h
      dsimp only
      rw [if_neg h0, checkedSubI64_self, ok_bind, if_pos (le_refl (0 : Int))]

theorem expire_position_shape {cfg : Config} {pos : PositionData}
    {prof : UserMiningProfile} {now : Int} {c : Config} {p : PositionData}
    {f : UserMiningProfile}
    (h : expire_position cfg pos prof now = .ok (c, p, f)) :
    (∃ x, f = { prof with active_hp := x }) ∧ p.end_ts = pos.end_ts ∧
      p.deactivated = pos.deactivated := by
  unfold expire_position at h
  rcases ite_ok_elim h with ⟨_, h⟩ | ⟨_, h⟩
  · rw [ok_inj] at h
    have hc : cfg = c := congrArg Prod.fst h
    have hp := congrArg (fun x : Config × PositionData × UserMiningProfile => x.2.1) h
    have hf := congrArg (fun x : Config × PositionData × UserMiningProfile => x.2.2) h
    dsimp only at hp hf
    subst hp hf
    exact ⟨⟨prof.active_hp, rfl⟩, rfl, rfl⟩
  · obtain ⟨cfg1, hcfg1, h⟩ := bind_ok_elim h
    obtain ⟨rt, hrt, h⟩ := bind_ok_elim h
    obtain ⟨base, hbase, h⟩ := bind_ok_elim h
    obtain ⟨hpe, hhpe, h⟩ := bind_ok_elim h
    obtain ⟨hpe64, hhpe64, h⟩ := bind_ok_elim h
    obtain ⟨network, hnet, h⟩ := bind_ok_elim h
    obtain ⟨base64, hbase64, h⟩ := bind_ok_elim h
    obtain ⟨active, hactive, h⟩ := bind_ok_elim h
    obtain ⟨cfg2, hcfg2, h⟩ := bind_ok_elim h
    rw [ok_inj] at h
    have hp := congrArg (fun x : Config × PositionData × UserMiningProfile => x.2.1) h
    have hf := congrArg (fun x : Config × PositionData × UserMiningProfile => x.2.2) h
    dsimp only at hp hf
    subst hp hf
    exact ⟨⟨active, rfl⟩, rfl, rfl⟩

theorem finalize_position_shape {cfg : Config} {pos : PositionData}
    {prof : UserMiningProfile} {now : Int} {c : Config} {p : PositionData}
    {f : UserMiningProfile}
    (h : finalize_position cfg pos prof now = .ok (c, p, f)) :
    (∃ x, f = { prof with active_hp := x }) ∧ p.deactivated = true ∧
      p.end_ts = pos.end_ts := by
  unfold finalize_position at h
  obtain ⟨cfg1, hcfg1, h⟩ := bind_ok_elim h
  obtain ⟨rt, hrt, h⟩ := bind_ok_elim h
  obtain ⟨base, hbase, h⟩ := bind_ok_elim h
  obtain ⟨hpe, hhpe, h⟩ := bind_ok_elim h
  obtain ⟨hpe64, hhpe64, h⟩ := bind_ok_elim h
  obtain ⟨step, hstep, h⟩ := bind_ok_elim h
  rcases ite_ok_elim h with ⟨_, hcon⟩ | ⟨_, h⟩
  · cases hcon
  · obtain ⟨cfg3, hcfg3, h⟩ := bind_ok_elim h
    rw [ok_inj] at h
    have hp := congrArg (fun x : Config × PositionData × UserMiningProfile => x.2.1) h
    have hf := congrArg (fun x : Config × PositionData × UserMiningProfile => x.2.2) h
    dsimp only at hp hf
    subst hp hf
    rcases ite_ok_elim hstep with ⟨hne, hstep⟩ | ⟨hne, hstep⟩
    · obtain ⟨network, hnet, hstep⟩ := bind_ok_elim hstep
      obtain ⟨base64, hbase64, hstep⟩ := bind_ok_elim hstep
      obtain ⟨active, hactive, hstep⟩ := bind_ok_elim hstep
      rw [pure_eq_ok, ok_inj] at hstep
      subst hstep
      exact ⟨⟨active, rfl⟩, rfl, rfl⟩
    · rw [pure_eq_ok, ok_inj] at hstep
      subst hstep
      exact ⟨⟨prof.active_hp, rfl⟩, rfl, rfl⟩

/-- C7: invoking the Expired-to-Deactivated transition twice on the same
position is a no-op the second time — the second `deactivate_position` call
returns the state of the first unchanged (and any successful later call
returns it unchanged too) — and the effective weight is never subtracted
from `network_hp_active` more than once: when expiry already removed it,
`finalize_position` leaves the pool total and the owner's running total
untouched. -/
theorem c7_deactivate_idempotent_no_double_decrement :
    (∀ cfg pos prof, ∀ now : Int, ∀ c1 p1 f1,
      deactivate_position_core cfg pos prof now = .ok (c1, p1, f1) →
      deactivate_position_core c1 p1 f1 now = .ok (c1, p1, f1) ∧
      (∀ now2 : Int, ∀ r, deactivate_position_core c1 p1 f1 now2 = .ok r →
        r = (c1, p1, f1))) ∧
    (∀ cfg pos prof, ∀ now : Int, ∀ c' p' f',
      pos.expired = true →
      finalize_position cfg pos prof now = .ok (c', p', f') →
      c'.network_hp_active = cfg.network_hp_active ∧
      f'.active_hp = prof.active_hp) := by
  constructor
  · intro cfg pos prof now c1 p1 f1 h
    unfold deactivate_position_core at h
    obtain ⟨prof1, hprof, h⟩ := bind_ok_elim h
    rcases ite_ok_elim h with ⟨_, hcon⟩ | ⟨hend, h⟩
    · cases hcon
    · have hend' : pos.end_ts ≤ now := not_not.mp hend
      rcases ite_ok_elim h with ⟨hdeact, h⟩ | ⟨hnd, h⟩
      · rw [ok_inj] at h
        have hc := congrArg Prod.fst h
        have hp := congrArg (fun x : Config × PositionData × UserMiningProfile => x.2.1) h
        have hf := congrArg (fun x : Config × PositionData × UserMiningProfile => x.2.2) h
        dsimp only at hc hp hf
        subst hc hp hf
        constructor
        · unfold deactivate_position_core
          rw [hprof, ok_bind, if_neg (not_not_intro hend'), if_pos hdeact]
        · intro now2 r h2
          unfold deactivate_position_core at h2
          obtain ⟨g, hg, h2⟩ := bind_ok_elim h2
          rcases ite_ok_elim h2 with ⟨_, hcon2⟩ | ⟨_, h2⟩
          · cases hcon2
          · rcases ite_ok_elim h2 with ⟨_, h2⟩ | ⟨hc2, h2⟩
            · rw [ok_inj] at h2
              exact h2.symm
            · exact absurd hdeact hc2
      · obtain ⟨gd, hgd, h⟩ := bind_ok_elim h
        rcases ite_ok_elim h with ⟨_, hcon⟩ | ⟨hgr, h⟩
        · cases hcon
        · obtain ⟨step, hstep, h⟩ := bind_ok_elim h
          obtain ⟨cfgA, posA, profA⟩ := step
          dsimp only at h
          obtain ⟨⟨xf, hf1⟩, hdeact1, hend1⟩ := finalize_position_shape h
          have hstepShape : (∃ x, profA = { prof1 with active_hp := x }) ∧
              posA.end_ts = pos.end_ts := by
            rcases ite_ok_elim hstep with ⟨hne, hstep⟩ | ⟨hne, hstep⟩
            · have hsh := expire_position_shape hstep
              exact ⟨hsh.1, hsh.2.1⟩
            · obtain ⟨cu, hcu, hstep⟩ := bind_ok_elim hstep
              rw [pure_eq_ok, ok_inj] at hstep
              have hp2 := congrArg
                (fun x : Config × PositionData × UserMiningProfile => x.2.1) hstep
              have hf2 := congrArg
                (fun x : Config × PositionData × UserMiningProfile => x.2.2) hstep
              dsimp only at hp2 hf2
              subst hp2 hf2
              exact ⟨⟨prof1.active_hp, rfl⟩, rfl⟩
          obtain ⟨⟨xa, hprofA⟩, hendA⟩ := hstepShape
          subst hprofA
          have hf1' : f1 = { prof1 with active_hp := xf } := hf1
          have hux : update_user_xp f1 now = .ok f1 := by
            rw [hf1']
            exact update_user_xp_idem hprof xf
          have hend2 : p1.end_ts ≤ now := by
            rw [hend1, hendA]
            exact hend'
          constructor
          · unfold deactivate_position_core
            rw [hux, ok_bind, if_neg (not_not_intro hend2), if_pos hdeact1]
          · intro now2 r h2
            unfold deactivate_position_core at h2
            obtain ⟨g, hg, h2⟩ := bind_ok_elim h2
            rcases ite_ok_elim h2 with ⟨_, hcon2⟩ | ⟨_, h2⟩
            · cases hcon2
            · rcases ite_ok_elim h2 with ⟨_, h2⟩ | ⟨hc2, h2⟩
              · rw [ok_inj] at h2
                exact h2.symm
              · exact absurd hdeact1 hc2
  · intro cfg pos prof now c' p' f' hexp h
    unfold finalize_position at h
    obtain ⟨cfg1, hcfg1, hbody⟩ := bind_ok_elim h
    clear h
    have hcfg1' : cfg1 = cfg := by
      rcases ite_ok_elim hcfg1 with ⟨⟨hne, _⟩, _⟩ | ⟨_, hc⟩
      · exact absurd hexp hne
      · rw [pure_eq_ok, ok_inj] at hc
        exact hc.symm
    subst hcfg1'
    obtain ⟨rt, hrt, hbody⟩ := bind_ok_elim hbody
    obtain ⟨base, hbase, hbody⟩ := bind_ok_elim hbody
    obtain ⟨hpe, hhpe, hbody⟩ := bind_ok_elim hbody
    obtain ⟨hpe64, hhpe64, hbody⟩ := bind_ok_elim hbody
    obtain ⟨step, hstep, hbody⟩ := bind_ok_elim hbody
    have hstepEq : step = (cfg1, pos, prof) := by
      rcases ite_ok_elim hstep with ⟨hne, _⟩ | ⟨_, hstep⟩
      · exact absurd hexp hne
      · rw [pure_eq_ok, ok_inj] at hstep
        exact hstep.symm
    subst hstepEq
    rcases ite_ok_elim hbody with ⟨_, hcon⟩ | ⟨_, hbody⟩
    · cases hcon
    · obtain ⟨cfg3, hcfg3, hbody⟩ := bind_ok_elim hbody
      rw [ok_inj] at hbody
      have h1 := congrArg Prod.fst hbody
      have h3 := congrArg (fun x : Config × PositionData × UserMiningProfile => x.2.2) hbody
      dsimp only at h1 h3
      subst h1 h3
      exact ⟨(update_mining_global_ok_inv hcfg3).2.1, rfl⟩

/-- Witness for C7: a concrete deactivation repeated at the same time is a
no-op, and a concrete `finalize_position` on an already-expired position
leaves both weight totals untouched. -/
theorem c7_deactivate_idempotent_no_double_decrement_witness :
    (deactivate_position_core
      { emission_per_sec := 100, acc_mind_per_hp := 26666666666666666666,
        last_update_ts := 150, network_hp_active := 300,
        max_effective_hp := 100000, seconds_per_day := 10 }
      { owner := 7, hp := 9223372036854776508, start_ts := 0, end_ts := 100,
        reward_debt := 0, final_acc_mind_per_hp := 10000000000000000000,
        deactivated := true, bump := 1, rig_type := 1, buff_level := 0,
        hp_scaled := true, expired := true, buff_applied_from_cycle := 0,
        version := 2 }
      { owner := 7, next_position_index := 1, active_hp := 0, xp := 0,
        badge_tier := 0, badge_bonus_bps := 0, bump := 1, level := 1,
        last_xp_update_ts := 150, hp_scaled := true } 150 =
      .ok ({ emission_per_sec := 100, acc_mind_per_hp := 26666666666666666666,
             last_update_ts := 150, network_hp_active := 300,
             max_effective_hp := 100000, seconds_per_day := 10 },
           { owner := 7, hp := 9223372036854776508, start_ts := 0, end_ts := 100,
             reward_debt := 0, final_acc_mind_per_hp := 10000000000000000000,
             deactivated := true, bump := 1, rig_type := 1, buff_level := 0,
             hp_scaled := true, expired := true, buff_applied_from_cycle := 0,
             version := 2 },
           { owner := 7, next_position_index := 1, active_hp := 0, xp := 0,
             badge_tier := 0, badge_bonus_bps := 0, bump := 1, level := 1,
             last_xp_update_ts := 150, hp_scaled := true })) ∧
    Config.network_hp_active
      { emission_per_sec := 100, acc_mind_per_hp := 29999999999999999999,
        last_update_ts := 160, network_hp_active := 300,
        max_effective_hp := 100000, seconds_per_day := 10 } =
      Config.network_hp_active
        { emission_per_sec := 100, acc_mind_per_hp := 26666666666666666666,
          last_update_ts := 150, network_hp_active := 300,
          max_effective_hp := 100000, seconds_per_day := 10 } := by
  constructor
  · exact (c7_deactivate_idempotent_no_double_decrement.1
      { emission_per_sec := 100, acc_mind_per_hp := 0, last_update_ts := 0,
        network_hp_active := 1000, max_effective_hp := 100000, seconds_per_day := 10 }
      { owner := 7, hp := 700, start_ts := 0, end_ts := 100, reward_debt := 0,
        final_acc_mind_per_hp := 0, deactivated := false, bump := 1, rig_type := 1,
        buff_level := 0, hp_scaled := true, expired := false,
        buff_applied_from_cycle := 0, version := 2 }
      { owner := 7, next_position_index := 1, active_hp := 700, xp := 0,
        badge_tier := 0, badge_bonus_bps := 0, bump := 1, level := 1,
        last_xp_update_ts := 0, hp_scaled := true }
      150 _ _ _ rfl).1
  · exact (c7_deactivate_idempotent_no_double_decrement.2
      { emission_per_sec := 100, acc_mind_per_hp := 26666666666666666666,
        last_update_ts := 150, network_hp_active := 300,
        max_effective_hp := 100000, seconds_per_day := 10 }
      { owner := 7, hp := 700, start_ts := 0, end_ts := 100, reward_debt := 0,
        final_acc_mind_per_hp := 10000000000000000000, deactivated := false,
        bump := 1, rig_type := 1, buff_level := 0, hp_scaled := true,
        expired := true, buff_applied_from_cycle := 0, version := 2 }
      { owner := 7, next_position_index := 1, active_hp := 0, xp := 0,
        badge_tier := 0, badge_bonus_bps := 0, bump := 1, level := 1,
        last_xp_update_ts := 150, hp_scaled := true }
      160 _ _ _ rfl rfl).1

/-! ### Claim C6: the renewal bonus-cap validation -/

/-- Counterexample to C6 as stated: at profile level 5 (tier bonus 780 bps)
renewing a rig of type 1 to buff level 1 (buff 100 bps), the combined
buff-and-tier bonus of the portfolio is 885 bps — above the 850 bps cap —
yet the renewal cap validation passes, because it checks the rig-buff bonus
alone and ignores the tier/level bonus. -/
theorem c6_cap_check_counterexample :
    renew_rig_buff_cap_check
      { emission_per_sec := 100, acc_mind_per_hp := 0, last_update_ts := 0,
        network_hp_active := 1000, max_effective_hp := 100000, seconds_per_day := 10 }
      { owner := 7, next_position_index := 1, active_hp := 0, xp := 0,
        badge_tier := 0, badge_bonus_bps := 0, bump := 1, level := 5,
        last_xp_update_ts := 0, hp_scaled := true } 50 [] 1 700 1 = .ok () ∧
    spec_combined_buff_tier_bonus_bps
      (UserMiningProfile.level
        { owner := 7, next_position_index := 1, active_hp := 0, xp := 0,
          badge_tier := 0, badge_bonus_bps := 0, bump := 1, level := 5,
          last_xp_update_ts := 0, hp_scaled := true })
      [(700, rig_buff_bps 1 1)] = .ok 885 ∧
    RIG_BUFF_CAP_BPS < 885 :=
  ⟨rfl, rfl, by decide⟩

/-- C6 (amended): the buff-renewal cap validation checks the aggregate
rig-buff bonus only — not the combined buff-and-tier stack — expressed in
bps of the unbuffed base across the owner's whole portfolio of live
positions together with the renewed position, against `RIG_BUFF_CAP_BPS`,
and rejects with `RigBuffCapExceeded` exactly when that buff-only aggregate
bonus exceeds the cap. -/
theorem c6_cap_check_validates_buff_only_aggregate
    (cfg : Config) (prof : UserMiningProfile) (now : Int)
    (entries : List RenewEntry) (rig_ty base_hp newlvl baseT buffT renewed : Nat)
    (ht : renew_sibling_totals cfg prof.owner now entries 0 0 = .ok (baseT, buffT))
    (hb : baseT = prof.active_hp)
    (hr : apply_bps base_hp (rig_buff_bps rig_ty newlvl) = .ok renewed)
    (h1 : baseT + base_hp ≤ U128_MAX)
    (h2 : buffT + renewed ≤ U128_MAX)
    (h0 : 0 < baseT + base_hp)
    (hge : baseT + base_hp ≤ buffT + renewed)
    (hnum : (buffT + renewed - (baseT + base_hp)) * BPS_DENOMINATOR ≤ U128_MAX) :
    (renew_rig_buff_cap_check cfg prof now entries rig_ty base_hp newlvl = .ok () ↔
      (buffT + renewed - (baseT + base_hp)) * BPS_DENOMINATOR / (baseT + base_hp) ≤
        RIG_BUFF_CAP_BPS) ∧
    (RIG_BUFF_CAP_BPS < (buffT + renewed - (baseT + base_hp)) * BPS_DENOMINATOR /
        (baseT + base_hp) →
      renew_rig_buff_cap_check cfg prof now entries rig_ty base_hp newlvl =
        .error .RigBuffCapExceeded) := by
  have hchain : renew_rig_buff_cap_check cfg prof now entries rig_ty base_hp newlvl =
      (if (buffT + renewed - (baseT + base_hp)) * BPS_DENOMINATOR / (baseT + base_hp) ≤
          RIG_BUFF_CAP_BPS then .ok () else .error .RigBuffCapExceeded) := by
    unfold renew_rig_buff_cap_check
    rw [ht, ok_bind]
    dsimp only
    rw [if_neg (not_not_intro hb), hr, ok_bind]
    unfold checkedAddU128
    rw [if_pos h1, ok_bind, if_pos h2, ok_bind, if_pos h0]
    unfold checkedSubNat checkedMulU128 checkedDivU128
    rw [if_pos hge, ok_bind, if_pos hnum, ok_bind,
      if_neg (Nat.pos_iff_ne_zero.mp h0), ok_bind]
    rfl
  constructor
  · rw [hchain]
    by_cases hc : (buffT + renewed - (baseT + base_hp)) * BPS_DENOMINATOR /
        (baseT + base_hp) ≤ RIG_BUFF_CAP_BPS
    · rw [if_pos hc]
      exact ⟨fun _ => hc, fun _ => rfl⟩
    · rw [if_neg hc]
      exact ⟨fun h => absurd h (by exact fun hh => by cases hh), fun h => absurd h hc⟩
  · intro hgt
    rw [hchain, if_neg (not_le.mpr hgt)]

/-- Witness for the amended C6 at a concrete portfolio: a single renewed
type-1 rig at buff level 1 gives a buff-only aggregate bonus of 100 bps,
within the 850 bps cap, and the validation accepts. -/
theorem c6_cap_check_validates_buff_only_aggregate_witness :
    (renew_rig_buff_cap_check
      { emission_per_sec := 100, acc_mind_per_hp := 0, last_update_ts := 0,
        network_hp_active := 1000, max_effective_hp := 100000, seconds_per_day := 10 }
      { owner := 7, next_position_index := 1, active_hp := 0, xp := 0,
        badge_tier := 0, badge_bonus_bps := 0, bump := 1, level := 1,
        last_xp_update_ts := 0, hp_scaled := true } 50 [] 1 700 1 = .ok () ↔
      (0 + 707 - (0 + 700)) * BPS_DENOMINATOR / (0 + 700) ≤ RIG_BUFF_CAP_BPS) ∧
    (RIG_BUFF_CAP_BPS < (0 + 707 - (0 + 700)) * BPS_DENOMINATOR / (0 + 700) →
      renew_rig_buff_cap_check
        { emission_per_sec := 100, acc_mind_per_hp := 0, last_update_ts := 0,
          network_hp_active := 1000, max_effective_hp := 100000, seconds_per_day := 10 }
        { owner := 7, next_position_index := 1, active_hp := 0, xp := 0,
          badge_tier := 0, badge_bonus_bps := 0, bump := 1, level := 1,
          last_xp_update_ts := 0, hp_scaled := true } 50 [] 1 700 1 =
        .error .RigBuffCapExceeded) :=
  c6_cap_check_validates_buff_only_aggregate
    { emission_per_sec := 100, acc_mind_per_hp := 0, last_update_ts := 0,
      network_hp_active := 1000, max_effective_hp := 100000, seconds_per_day := 10 }
    { owner := 7, next_position_index := 1, active_hp := 0, xp := 0,
      badge_tier := 0, badge_bonus_bps := 0, bump := 1, level := 1,
      last_xp_update_ts := 0, hp_scaled := true }
    50 [] 1 700 1 0 0 707 rfl rfl rfl (by decide) (by decide) (by decide)
    (by decide) (by decide)

/-! ### Claim C8: the program-wide mined cap -/

/-- C8: a successful `claim` in `pocm_vault_mining` mints at most
`min(total claimable reward, mined_cap - mined_total)`, and afterwards
`mined_total` still does not exceed `mined_cap`. -/
theorem c8_mined_total_never_exceeds_cap
    (cfg : VmConfig) (caller : Nat) (now : Int) (amount : Nat)
    (positions : List VmUserPosition) (cfg' : VmConfig)
    (positions' : List VmUserPosition) (minted : Nat)
    (h : vm_claim_core cfg caller now amount positions =
      .ok (cfg', positions', minted)) :
    ∃ total, vm_total_claimable cfg caller now 0 positions = .ok total ∧
      minted = amount ∧
      cfg.mined_total ≤ cfg.mined_cap ∧
      minted ≤ min total (cfg.mined_cap - cfg.mined_total) ∧
      cfg'.mined_total = cfg.mined_total + minted ∧
      cfg'.mined_cap = cfg.mined_cap ∧
      cfg'.mined_total ≤ cfg'.mined_cap := by
  unfold vm_claim_core at h
  rcases ite_ok_elim h with ⟨_, hcon⟩ | ⟨hne, h⟩
  · cases hcon
  · obtain ⟨total, htotal, h⟩ := bind_ok_elim h
    obtain ⟨remaining, hrem, h⟩ := bind_ok_elim h
    have hremE : cfg.mined_total ≤ cfg.mined_cap ∧
        remaining = cfg.mined_cap - cfg.mined_total := by
      rcases ite_ok_elim hrem with ⟨hle, hok⟩ | ⟨_, hcon⟩
      · rw [pure_eq_ok, ok_inj] at hok
        exact ⟨hle, hok.symm⟩
      · cases hcon
    obtain ⟨hle, rfl⟩ := hremE
    rcases ite_ok_elim h with ⟨_, hcon⟩ | ⟨hmax, h⟩
    · cases hcon
    · rcases ite_ok_elim h with ⟨_, hcon⟩ | ⟨hamt, h⟩
      · cases hcon
      · obtain ⟨mined, hmined, h⟩ := bind_ok_elim h
        obtain ⟨wb, hwb, h⟩ := bind_ok_elim h
        rw [ok_inj] at h
        have h1 := congrArg (fun x : VmConfig × List VmUserPosition × Nat => x.1) h
        have h3 := congrArg (fun x : VmConfig × List VmUserPosition × Nat => x.2.2) h
        dsimp only at h1 h3
        subst h1 h3
        unfold checkedAddU64 at hmined
        rcases ite_ok_elim hmined with ⟨hleM, hok⟩ | ⟨_, hcon⟩
        · rw [ok_inj] at hok
          subst hok
          have hamt' : amount ≤ min total (cfg.mined_cap - cfg.mined_total) :=
            not_not.mp hamt
          refine ⟨total, htotal, rfl, hle, hamt', rfl, rfl, ?_⟩
          have h2 : amount ≤ cfg.mined_cap - cfg.mined_total :=
            le_trans hamt' (min_le_right _ _)
          show cfg.mined_total + amount ≤ cfg.mined_cap
          omega
        · cases hcon

/-- Witness for C8: a concrete claim of 5 units against a cap with 10
remaining mints 5 and leaves `mined_total = 95 ≤ mined_cap = 100`. -/
theorem c8_mined_total_never_exceeds_cap_witness :
    ∃ total, vm_total_claimable
      { daily_emission_initial := 0, daily_emission_current := 0,
        epoch_seconds := 86400, soft_halving_period_days := 90,
        soft_halving_bps_drop := 1000, emission_start_ts := 0, mined_total := 90,
        mined_cap := 100, mind_reward_7d := 1000, mind_reward_14d := 2000,
        mind_reward_28d := 3000 } 7 50 0
      [{ owner := 7, locked_amount := 10, lock_start_ts := 0, lock_end_ts := 100,
         duration_days := 7, accrued_owed := 0 }] = .ok total ∧
      (5 : Nat) = 5 ∧
      (90 : Nat) ≤ 100 ∧
      (5 : Nat) ≤ min total (100 - 90) ∧
      VmConfig.mined_total
        { daily_emission_initial := 0, daily_emission_current := 0,
          epoch_seconds := 86400, soft_halving_period_days := 90,
          soft_halving_bps_drop := 1000, emission_start_ts := 0, mined_total := 95,
          mined_cap := 100, mind_reward_7d := 1000, mind_reward_14d := 2000,
          mind_reward_28d := 3000 } = 90 + 5 ∧
      VmConfig.mined_cap
        { daily_emission_initial := 0, daily_emission_current := 0,
          epoch_seconds := 86400, soft_halving_period_days := 90,
          soft_halving_bps_drop := 1000, emission_start_ts := 0, mined_total := 95,
          mined_cap := 100, mind_reward_7d := 1000, mind_reward_14d := 2000,
          mind_reward_28d := 3000 } = 100 ∧
      (95 : Nat) ≤ 100 := by
  have h := c8_mined_total_never_exceeds_cap
    { daily_emission_initial := 0, daily_emission_current := 0,
      epoch_seconds := 86400, soft_halving_period_days := 90,
      soft_halving_bps_drop := 1000, emission_start_ts := 0, mined_total := 90,
      mined_cap := 100, mind_reward_7d := 1000, mind_reward_14d := 2000,
      mind_reward_28d := 3000 } 7 50 5
    [{ owner := 7, locked_amount := 10, lock_start_ts := 0, lock_end_ts := 100,
       duration_days := 7, accrued_owed := 0 }]
    { daily_emission_initial := 0, daily_emission_current := 0,
      epoch_seconds := 86400, soft_halving_period_days := 90,
      soft_halving_bps_drop := 1000, emission_start_ts := 0, mined_total := 95,
      mined_cap := 100, mind_reward_7d := 1000, mind_reward_14d := 2000,
      mind_reward_28d := 3000 }
    [{ owner := 7, locked_amount := 10, lock_start_ts := 0, lock_end_ts := 100,
       duration_days := 7, accrued_owed := 5 }] 5 rfl
  exact h

/-! ### Claim C9: epoch indexing and the soft-halving emission schedule -/

/-- C9: the epoch index of a timestamp is
`(now - emission_start) / epoch_length` by integer division, timestamps
before `emission_start` are rejected with `BeforeStart`; and the
spec-modelled per-epoch emission applies one floored fixed-point
`(10000 - drop_bps) / 10000` step per halving, with
`halving_count = elapsed_seconds / halving_period_seconds`, so that with
`initial = 1000`, `drop_bps = 1000` and 2 halvings elapsed (epoch 25 of a
10-epoch halving period) the emission is 810. -/
theorem c9_epoch_index_and_halving_emission :
    (∀ cfg : VmConfig, ∀ ts : Int,
        cfg.emission_start_ts ≤ ts → 0 < cfg.epoch_seconds →
        ts - cfg.emission_start_ts ≤ I64_MAX →
        epoch_index_for_ts cfg ts =
          .ok ((ts - cfg.emission_start_ts).toNat / cfg.epoch_seconds)) ∧
    (∀ cfg : VmConfig, ∀ ts : Int, ts < cfg.emission_start_ts →
        epoch_index_for_ts cfg ts = .error .BeforeStart) ∧
    (∀ initial drop k, epoch_emission_after_halvings initial drop (k + 1) =
        epoch_emission_after_halvings initial drop k * (10000 - drop) / 10000) ∧
    halving_count (25 * 86400) (10 * 86400) = 2 ∧
    epoch_emission_after_halvings 1000 1000 2 = 810 := by
  refine ⟨?_, ?_, fun initial drop k => rfl, by decide, by decide⟩
  · intro cfg ts h1 h2 h3
    unfold epoch_index_for_ts
    rw [if_neg (not_not_intro h1)]
    have hsub : checkedSubI64 ts cfg.emission_start_ts =
        .ok (ts - cfg.emission_start_ts) := by
      apply checkedSubI64_ok
      · have hz : (0 : Int) ≤ ts - cfg.emission_start_ts := by omega
        have hm : I64_MIN ≤ (0 : Int) := by norm_num [I64_MIN]
        omega
      · exact h3
    rw [hsub, ok_bind, if_neg (not_not_intro h2)]
  · intro cfg ts h
    unfold epoch_index_for_ts
    rw [if_pos (not_le.mpr h)]
    rfl

/-- Witness for C9: the second epoch day starts at index 1 and a pre-start
timestamp is rejected. -/
theorem c9_epoch_index_and_halving_emission_witness :
    epoch_index_for_ts
      { daily_emission_initial := 0, daily_emission_current := 0,
        epoch_seconds := 86400, soft_halving_period_days := 90,
        soft_halving_bps_drop := 1000, emission_start_ts := 0, mined_total := 0,
        mined_cap := 100, mind_reward_7d := 1000, mind_reward_14d := 2000,
        mind_reward_28d := 3000 } 90000 =
      .ok ((90000 - 0 : Int).toNat / 86400) ∧
    epoch_index_for_ts
      { daily_emission_initial := 0, daily_emission_current := 0,
        epoch_seconds := 86400, soft_halving_period_days := 90,
        soft_halving_bps_drop := 1000, emission_start_ts := 0, mined_total := 0,
        mined_cap := 100, mind_reward_7d := 1000, mind_reward_14d := 2000,
        mind_reward_28d := 3000 } (-5) = .error .BeforeStart :=
  ⟨c9_epoch_index_and_halving_emission.1
    { daily_emission_initial := 0, daily_emission_current := 0,
      epoch_seconds := 86400, soft_halving_period_days := 90,
      soft_halving_bps_drop := 1000, emission_start_ts := 0, mined_total := 0,
      mined_cap := 100, mind_reward_7d := 1000, mind_reward_14d := 2000,
      mind_reward_28d := 3000 } 90000 (by decide) (by decide)
      (by norm_num [I64_MAX]),
   c9_epoch_index_and_halving_emission.2.1
    { daily_emission_initial := 0, daily_emission_current := 0,
      epoch_seconds := 86400, soft_halving_period_days := 90,
      soft_halving_bps_drop := 1000, emission_start_ts := 0, mined_total := 0,
      mined_cap := 100, mind_reward_7d := 1000, mind_reward_14d := 2000,
      mind_reward_28d := 3000 } (-5) (by decide)⟩

/-! ### Claim C10: the versioned state migrator of melt_v1 -/

theorem leBytes_length (w n : Nat) : (leBytes w n).length = w := by
  induction w generalizing n with
  | zero => rfl
  | succ w ih => simp [leBytes, ih]

theorem leVal_leBytes (w n : Nat) : leVal (leBytes w n) = n % 256 ^ w := by
  induction w generalizing n with
  | zero => simp [leBytes, leVal, Nat.mod_one]
  | succ w ih =>
    rw [show leBytes (w + 1) n = n % 256 :: leBytes w (n / 256) from rfl,
      show leVal (n % 256 :: leBytes w (n / 256)) =
        n % 256 + 256 * leVal (leBytes w (n / 256)) from rfl,
      ih, pow_succ, mul_comm (256 ^ w) 256, Nat.mod_mul]

theorem readLE_append {w n : Nat} (h : n < 256 ^ w) (rest : List Nat) :
    readLE w (leBytes w n ++ rest) = .ok (n, rest) := by
  unfold readLE
  have hlen : (leBytes w n).length = w := leBytes_length w n
  rw [if_pos (by rw [List.length_append, hlen]; omega),
    List.take_left' hlen, List.drop_left' hlen, leVal_leBytes, Nat.mod_eq_of_lt h]

theorem readLE_exact {w n : Nat} (h : n < 256 ^ w) :
    readLE w (leBytes w n) = .ok (n, []) := by
  have := readLE_append h []
  rwa [List.append_nil] at this

theorem readBool_append (b : Bool) (rest : List Nat) :
    readBool (boolByte b :: rest) = .ok (b, rest) := by
  cases b <;> rfl

theorem decodeMeltConfig_encode (c : MeltConfig) (h : MeltConfigWF c) :
    decodeMeltConfig (encodeMeltConfig c) = .ok c := by
  obtain ⟨h1, h2, h3, h4, h5, h6, h7, h8, h9, h10, h11, h12, h13, h14⟩ := h
  unfold decodeMeltConfig encodeMeltConfig
  simp only [List.append_assoc, List.cons_append, List.nil_append,
    readLE_append h1, readLE_append h2, readLE_append h3, readLE_append h4,
    readLE_append h5, readLE_append h6, readLE_append h7, readBool_append,
    readLE_append h8, readLE_append h9, readLE_append h10, readLE_append h11,
    readLE_append h12, readLE_append h13, readLE_exact h14, ok_bind]
  rfl

theorem decodeMeltLegacy_encode (c : MeltConfigLegacyV1) (h : MeltLegacyWF c) :
    decodeMeltLegacy (encodeMeltLegacy c) = .ok c := by
  obtain ⟨h1, h2, h3, h4, h5, h6, h7, h8, h9, h10⟩ := h
  unfold decodeMeltLegacy encodeMeltLegacy
  simp only [List.append_assoc, List.cons_append, List.nil_append,
    readLE_append h1, readLE_append h2, readLE_append h3, readLE_append h4,
    readLE_append h5, readLE_append h6, readLE_append h7, readBool_append,
    readLE_append h8, readLE_append h9, readLE_exact h10, ok_bind]
  rfl

theorem encodeMeltConfig_length (c : MeltConfig) :
    (encodeMeltConfig c).length = MELT_CONFIG_INIT_SPACE := by
  unfold encodeMeltConfig
  simp [leBytes_length, MELT_CONFIG_INIT_SPACE]

theorem encodeMeltLegacy_length (c : MeltConfigLegacyV1) :
    (encodeMeltLegacy c).length = MELT_LEGACY_INIT_SPACE := by
  unfold encodeMeltLegacy
  simp [leBytes_length, MELT_LEGACY_INIT_SPACE]

/-- C10: the melt_v1 state migrator detects the schema generation of a
persisted record purely from the record's byte length (a payload that is
neither the current 166-byte nor the legacy 133-byte schema is rejected
regardless of its content, and no version-tag field exists to read), fills
every newly-introduced field of an upgraded legacy record with its
documented default (0 / false), and is idempotent: migrating a record
already at the current schema writes back the identical bytes. -/
theorem c10_migrator_length_detection_defaults_idempotence :
    (∀ c : MeltConfig, MeltConfigWF c → ∀ key, c.admin = key →
      migrate_melt_config_account key
        (MELT_CONFIG_DISCRIMINATOR ++ encodeMeltConfig c) =
        .ok (MELT_CONFIG_DISCRIMINATOR ++ encodeMeltConfig c)) ∧
    (∀ v : MeltConfigLegacyV1, MeltLegacyWF v → ∀ key, v.admin = key →
      migrate_melt_config_account key
        (MELT_CONFIG_DISCRIMINATOR ++ encodeMeltLegacy v) =
        .ok (MELT_CONFIG_DISCRIMINATOR ++ encodeMeltConfig
          { admin := v.admin, mind_mint := v.mind_mint, vault := v.vault,
            vault_cap_lamports := v.vault_cap_lamports,
            rollover_bps := v.rollover_bps, burn_min := v.burn_min,
            round_window_sec := v.round_window_sec, test_mode := v.test_mode,
            round_seq := v.round_seq, vial_lamports := 0,
            bonus_pool_lamports := 0, active_round_seq := 0,
            active_round_active := false, pending_window_sec := 0,
            bump_config := v.bump_config, bump_vault := v.bump_vault })) ∧
    (∀ data : List Nat, ∀ key,
      (data.drop 8).length ≠ MELT_CONFIG_INIT_SPACE →
      (data.drop 8).length ≠ MELT_LEGACY_INIT_SPACE →
      migrate_melt_config_account key data = .error .InvalidParams) := by
  have hdl : MELT_CONFIG_DISCRIMINATOR.length = 8 := rfl
  refine ⟨?_, ?_, ?_⟩
  · intro c hwf key hadm
    unfold migrate_melt_config_account
    rw [if_neg (not_not_intro (by
      rw [List.length_append, hdl]
      omega))]
    rw [if_neg (not_not_intro (List.take_left' hdl)), List.drop_left' hdl,
      encodeMeltConfig_length, if_pos rfl, decodeMeltConfig_encode c hwf, ok_bind,
      if_neg (not_not_intro hadm), if_neg (not_not_intro (encodeMeltConfig_length c))]
  · intro v hwf key hadm
    unfold migrate_melt_config_account
    rw [if_neg (not_not_intro (by
      rw [List.length_append, hdl]
      omega))]
    rw [if_neg (not_not_intro (List.take_left' hdl)), List.drop_left' hdl,
      encodeMeltLegacy_length,
      if_neg (by decide : ¬ MELT_LEGACY_INIT_SPACE = MELT_CONFIG_INIT_SPACE),
      if_pos rfl, decodeMeltLegacy_encode v hwf, ok_bind, pure_eq_ok, ok_bind]
    unfold upgradeMeltLegacy
    rw [if_neg (not_not_intro hadm), if_neg (not_not_intro (encodeMeltConfig_length _))]
  · intro data key hne1 hne2
    unfold migrate_melt_config_account
    by_cases hl : 8 ≤ data.length
    · rw [if_neg (not_not_intro hl)]
      by_cases hd : data.take 8 = MELT_CONFIG_DISCRIMINATOR
      · rw [if_neg (not_not_intro hd), if_neg hne1, if_neg hne2, throw_eq_error,
          error_bind]
      · rw [if_pos hd]
        rfl
    · rw [if_pos hl]
      rfl

/-- Witness for C10 at concrete records: current-schema migration returns
identical bytes, legacy migration defaults the five new fields, and a
payload of unknown length is rejected. -/
theorem c10_migrator_length_detection_defaults_idempotence_witness :
    migrate_melt_config_account 5
      (MELT_CONFIG_DISCRIMINATOR ++ encodeMeltConfig
        { admin := 5, mind_mint := 6, vault := 7, vault_cap_lamports := 100,
          rollover_bps := 250, burn_min := 1, round_window_sec := 3600,
          test_mode := false, round_seq := 2, vial_lamports := 3,
          bonus_pool_lamports := 4, active_round_seq := 1,
          active_round_active := true, pending_window_sec := 9,
          bump_config := 254, bump_vault := 255 }) =
      .ok (MELT_CONFIG_DISCRIMINATOR ++ encodeMeltConfig
        { admin := 5, mind_mint := 6, vault := 7, vault_cap_lamports := 100,
          rollover_bps := 250, burn_min := 1, round_window_sec := 3600,
          test_mode := false, round_seq := 2, vial_lamports := 3,
          bonus_pool_lamports := 4, active_round_seq := 1,
          active_round_active := true, pending_window_sec := 9,
          bump_config := 254, bump_vault := 255 }) ∧
    migrate_melt_config_account 5
      (MELT_CONFIG_DISCRIMINATOR ++ encodeMeltLegacy
        { admin := 5, mind_mint := 6, vault := 7, vault_cap_lamports := 100,
          rollover_bps := 250, burn_min := 1, round_window_sec := 3600,
          test_mode := true, round_seq := 2, bump_config := 254,
          bump_vault := 255 }) =
      .ok (MELT_CONFIG_DISCRIMINATOR ++ encodeMeltConfig
        { admin := 5, mind_mint := 6, vault := 7, vault_cap_lamports := 100,
          rollover_bps := 250, burn_min := 1, round_window_sec := 3600,
          test_mode := true, round_seq := 2, vial_lamports := 0,
          bonus_pool_lamports := 0, active_round_seq := 0,
          active_round_active := false, pending_window_sec := 0,
          bump_config := 254, bump_vault := 255 }) ∧
    migrate_melt_config_account 5 (MELT_CONFIG_DISCRIMINATOR ++ [1, 2, 3]) =
      .error .InvalidParams :=
  ⟨c10_migrator_length_detection_defaults_idempotence.1
    { admin := 5, mind_mint := 6, vault := 7, vault_cap_lamports := 100,
      rollover_bps := 250, burn_min := 1, round_window_sec := 3600,
      test_mode := false, round_seq := 2, vial_lamports := 3,
      bonus_pool_lamports := 4, active_round_seq := 1,
      active_round_active := true, pending_window_sec := 9,
      bump_config := 254, bump_vault := 255 }
    (by unfold MeltConfigWF; decide) 5 rfl,
   c10_migrator_length_detection_defaults_idempotence.2.1
    { admin := 5, mind_mint := 6, vault := 7, vault_cap_lamports := 100,
      rollover_bps := 250, burn_min := 1, round_window_sec := 3600,
      test_mode := true, round_seq := 2, bump_config := 254,
      bump_vault := 255 } (by unfold MeltLegacyWF; decide) 5 rfl,
   c10_migrator_length_detection_defaults_idempotence.2.2
    (MELT_CONFIG_DISCRIMINATOR ++ [1, 2, 3]) 5 (by decide) (by decide)⟩
